import Mathlib

/-!
Verification of the 3x-ui panel client (`ui_api.py`) and the admin provisioning
flow (`bot.py`) of the telegram-bot-3xui repository, over a shallow embedding of
the relevant Python code.

Python values that can appear in the JSON payloads exchanged with the panel are
modelled by the inductive type `PyVal` (None, bool, int, str, list, dict with
string keys).  Python dictionaries are modelled as ordered association lists
without duplicate keys, matching insertion order.  Fallible Python expressions
(attribute errors, key errors, type errors, raised RuntimeErrors) are modelled
in the `Except String` monad; the error string plays the role of the exception.

The functions of `UIAPI` are translated statement by statement; network input
(HTTP responses, polled inbound states) is passed in explicitly, and mutating
calls return the request payload they would post instead of performing IO.
`json.loads` and `json.dumps(..., separators=(",", ":"))` of the Python
standard library are modelled by an executable serializer `dumps` and a fuel
based recursive descent reader `json_loads`, with a proved round trip on well
formed values (`wfV`): ASCII printable strings and duplicate free dict keys,
the region in which the model agrees with the Python library.
-/

/-- Model of a Python value as it appears in the JSON traffic of `ui_api.py`. -/
inductive PyVal where
  | none
  | bool (b : Bool)
  | int (n : Int)
  | str (s : String)
  | list (xs : List PyVal)
  | dict (kvs : List (String × PyVal))
deriving Repr

/-- Python truthiness (`bool(x)`): None, False, 0, empty string, empty list and
empty dict are falsy, everything else is truthy. -/
def PyVal.truthy : PyVal → Bool
  | .none => false
  | .bool b => b
  | .int n => n != 0
  | .str s => s != ""
  | .list xs => !xs.isEmpty
  | .dict kvs => !kvs.isEmpty

/-- Python `x or y`: the left operand when truthy, otherwise the right one. -/
def pyOr (x y : PyVal) : PyVal := if x.truthy then x else y

/-- Lookup in a Python dict, `d.get(k)`: the stored value, or None when the key
is absent. -/
def dictGet : List (String × PyVal) → String → PyVal
  | [], _ => .none
  | (k, v) :: kvs, key => if k == key then v else dictGet kvs key

/-- Lookup with an explicit default, `d.get(k, default)`. -/
def dictGetD : List (String × PyVal) → String → PyVal → PyVal
  | [], _, d => d
  | (k, v) :: kvs, key, d => if k == key then v else dictGetD kvs key d

/-- Assignment into a Python dict, `d[k] = v`: replaces the value of an existing
key in place, otherwise appends the new key at the end (insertion order). -/
def dictSet : List (String × PyVal) → String → PyVal → List (String × PyVal)
  | [], key, v => [(key, v)]
  | (k, w) :: kvs, key, v =>
    if k == key then (key, v) :: kvs else (k, w) :: dictSet kvs key v

/-- Membership test for a key, `k in d`. -/
def hasKey : List (String × PyVal) → String → Bool
  | [], _ => false
  | (k, _) :: kvs, key => k == key || hasKey kvs key

/-- Python `x.get(k)` on an arbitrary value: dict lookup, or an AttributeError
when the receiver is not a dict. -/
def pyGetAttr (v : PyVal) (k : String) : Except String PyVal :=
  match v with
  | .dict kvs => .ok (dictGet kvs k)
  | _ => .error "AttributeError"

/-- Python `x.get(k, default)` on an arbitrary value. -/
def pyGetAttrD (v : PyVal) (k : String) (d : PyVal) : Except String PyVal :=
  match v with
  | .dict kvs => .ok (dictGetD kvs k d)
  | _ => .error "AttributeError"

/-- Python subscription `x[k]` with a string key: KeyError when absent,
TypeError when the receiver is not a dict. -/
def pyGetItem (v : PyVal) (k : String) : Except String PyVal :=
  match v with
  | .dict kvs => if hasKey kvs k then .ok (dictGet kvs k) else .error "KeyError"
  | _ => .error "TypeError"

/-- Python item assignment `x[k] = v` on a value expected to be a dict. -/
def pySetItem (v : PyVal) (k : String) (w : PyVal) : Except String PyVal :=
  match v with
  | .dict kvs => .ok (.dict (dictSet kvs k w))
  | _ => .error "TypeError"

/-- Iterating a value with a for loop; the code only ever iterates lists, any
other operand is a TypeError in this model. -/
def asPyList (v : PyVal) : Except String (List PyVal) :=
  match v with
  | .list xs => .ok xs
  | _ => .error "TypeError"

/-- View of a value as the entry list of a dict. -/
def asDictKvs (v : PyVal) : Except String (List (String × PyVal)) :=
  match v with
  | .dict kvs => .ok kvs
  | _ => .error "TypeError"

/-- Python `dict(x)`: a shallow copy of a dict, a TypeError otherwise. -/
def pyDictCopy (v : PyVal) : Except String PyVal :=
  match v with
  | .dict kvs => .ok (.dict kvs)
  | _ => .error "TypeError"

/-- Python `x == s` against a str literal: only a str with equal contents
compares equal, every other value compares unequal. -/
def pyEqStr (v : PyVal) (s : String) : Bool :=
  match v with
  | .str t => t == s
  | _ => false

/-- Python `s.strip()` on a str: leading and trailing whitespace removed,
computed on the character list so that the kernel can evaluate it. -/
def pyTrim (s : String) : String :=
  String.mk (((s.data.dropWhile Char.isWhitespace).reverse.dropWhile
    Char.isWhitespace).reverse)

/-- Python `s.lower()` on a str, computed on the character list. -/
def pyLower (s : String) : String := String.mk (s.data.map Char.toLower)

/-- Python `x.strip()`: whitespace trimming on a str, an AttributeError on any
other receiver. -/
def pyStrip (v : PyVal) : Except String String :=
  match v with
  | .str s => .ok (pyTrim s)
  | _ => .error "AttributeError"

/-- Decimal digit to its ASCII character. -/
def digitChar (d : Nat) : Char := "0123456789".data.getD d '0'

/-- ASCII character to its decimal digit value. -/
def charDigit (c : Char) : Nat := c.toNat - 48

/-- Decision of the ASCII digit range. -/
def isDigitC (c : Char) : Bool := 48 ≤ c.toNat && c.toNat ≤ 57

/-- Little endian decimal digits of a natural number, by fuel bounded
recursion so that the kernel can evaluate it. -/
def natDigitsAux : Nat → Nat → List Nat
  | 0, _ => []
  | fuel + 1, m => if m = 0 then [] else m % 10 :: natDigitsAux fuel (m / 10)

/-- Little endian decimal digits of a natural number. -/
def natDigits (m : Nat) : List Nat := natDigitsAux m m

/-- Decimal rendering of a natural number as a character list, most significant
digit first. -/
def natChars (m : Nat) : List Char :=
  if m = 0 then ['0'] else (natDigits m).reverse.map digitChar

/-- Decimal rendering of an integer as a character list, as printed by Python. -/
def intChars (n : Int) : List Char :=
  if n < 0 then '-' :: natChars n.natAbs else natChars n.natAbs

/-- Decimal rendering of an integer as a string, Python `str(n)`. -/
def intStr (n : Int) : String := String.mk (intChars n)

/-- Splits the longest leading run of ASCII digits off a character list. -/
def takeDigits : List Char → List Char × List Char
  | [] => ([], [])
  | c :: cs =>
    if isDigitC c then
      let (ds, rest) := takeDigits cs
      (c :: ds, rest)
    else ([], c :: cs)

/-- Value of a big endian digit character list. -/
def digitsVal (ds : List Char) : Nat :=
  ds.foldl (fun a c => 10 * a + charDigit c) 0

/-- Reads one decimal natural from the front of a character list; fails when no
digit is present. -/
def parseNat (cs : List Char) : Option (Nat × List Char) :=
  match takeDigits cs with
  | ([], _) => Option.none
  | (ds, rest) => some (digitsVal ds, rest)

/-- Python `int(s)` on a string consisting of an optional sign and digits. -/
def parseIntString (s : String) : Option Int :=
  match s.data with
  | '-' :: cs =>
    match parseNat cs with
    | some (m, []) => some (-(m : Int))
    | _ => Option.none
  | cs =>
    match parseNat cs with
    | some (m, []) => some ((m : Int))
    | _ => Option.none

/-- Python `int(x)`: identity on ints, 0 or 1 on bools, decimal reading on
strings (ValueError when malformed), TypeError otherwise. -/
def pyInt (v : PyVal) : Except String Int :=
  match v with
  | .int n => .ok n
  | .bool b => .ok (if b then 1 else 0)
  | .str s =>
    match parseIntString s with
    | some n => .ok n
    | Option.none => .error "ValueError"
  | _ => .error "TypeError"

mutual

/-- Python `str(x)` for the modelled values. -/
def pyStr : PyVal → String
  | .none => "None"
  | .bool true => "True"
  | .bool false => "False"
  | .int n => intStr n
  | .str s => s
  | .list xs => "[" ++ pyReprL xs ++ "]"
  | .dict kvs => "\x7b" ++ pyReprM kvs ++ "\x7d"

/-- Python `repr(x)` for the modelled values (strings quoted). -/
def pyRepr : PyVal → String
  | .none => "None"
  | .bool true => "True"
  | .bool false => "False"
  | .int n => intStr n
  | .str s => "\x27" ++ s ++ "\x27"
  | .list xs => "[" ++ pyReprL xs ++ "]"
  | .dict kvs => "\x7b" ++ pyReprM kvs ++ "\x7d"

/-- Comma separated reprs of list elements. -/
def pyReprL : List PyVal → String
  | [] => ""
  | [x] => pyRepr x
  | x :: y :: xs => pyRepr x ++ ", " ++ pyReprL (y :: xs)

/-- Comma separated reprs of dict entries. -/
def pyReprM : List (String × PyVal) → String
  | [] => ""
  | [(k, v)] => "\x27" ++ k ++ "\x27: " ++ pyRepr v
  | (k, v) :: m :: kvs => "\x27" ++ k ++ "\x27: " ++ pyRepr v ++ ", " ++ pyReprM (m :: kvs)

end

/-- JSON escaping of one string character: quote and backslash get a backslash
marker, everything else passes through (sufficient for ASCII printable text). -/
def escChar (c : Char) : List Char :=
  if c = '\"' then ['\\', '\"']
  else if c = '\\' then ['\\', '\\']
  else [c]

/-- JSON escaping of a character list. -/
def escL : List Char → List Char
  | [] => []
  | c :: cs => escChar c ++ escL cs

mutual

/-- Character output of `json.dumps(v, separators=(",", ":"))` on one value. -/
def dChars : PyVal → List Char
  | .none => "null".data
  | .bool true => "true".data
  | .bool false => "false".data
  | .int n => intChars n
  | .str s => '\"' :: (escL s.data ++ ['\"'])
  | .list xs => '[' :: dCharsL xs
  | .dict kvs => '\x7b' :: dCharsM kvs

/-- Character output of a list body including the closing bracket. -/
def dCharsL : List PyVal → List Char
  | [] => [']']
  | x :: xs => dChars x ++ dCharsSepL xs

/-- Character output of the remaining list elements, each preceded by a comma,
including the closing bracket. -/
def dCharsSepL : List PyVal → List Char
  | [] => [']']
  | x :: xs => ',' :: (dChars x ++ dCharsSepL xs)

/-- Character output of a dict body including the closing brace. -/
def dCharsM : List (String × PyVal) → List Char
  | [] => ['\x7d']
  | (k, v) :: kvs => '\"' :: (escL k.data ++ '\"' :: ':' :: (dChars v ++ dCharsSepM kvs))

/-- Character output of the remaining dict entries, each preceded by a comma,
including the closing brace. -/
def dCharsSepM : List (String × PyVal) → List Char
  | [] => ['\x7d']
  | (k, v) :: kvs =>
    ',' :: '\"' :: (escL k.data ++ '\"' :: ':' :: (dChars v ++ dCharsSepM kvs))

end

/-- Model of `json.dumps(v, separators=(",", ":"))`. -/
def dumps (v : PyVal) : String := String.mk (dChars v)

/-- Reads the body of a JSON string literal after the opening quote, undoing
`escChar`; returns the contents and the characters after the closing quote. -/
def parseStrChars : List Char → Option (List Char × List Char)
  | [] => Option.none
  | c :: rest =>
    if c = '\"' then some ([], rest)
    else if c = '\\' then
      match rest with
      | [] => Option.none
      | e :: rest' =>
        if e = '\"' ∨ e = '\\' ∨ e = '/' then
          match parseStrChars rest' with
          | some (cs, r) => some (e :: cs, r)
          | Option.none => Option.none
        else Option.none
    else
      match parseStrChars rest with
      | some (cs, r) => some (c :: cs, r)
      | Option.none => Option.none

/-- Classification of the first character of a JSON value. -/
inductive HeadKind where
  | digit
  | minus
  | quote
  | lbrack
  | lbrace
  | litn
  | litt
  | litf
  | other
deriving Repr, DecidableEq

/-- Dispatch on the first character of a JSON value. -/
def headKind (c : Char) : HeadKind :=
  if isDigitC c then .digit
  else if c = '-' then .minus
  else if c = '\"' then .quote
  else if c = '[' then .lbrack
  else if c = '\x7b' then .lbrace
  else if c = 'n' then .litn
  else if c = 't' then .litt
  else if c = 'f' then .litf
  else .other

mutual

/-- Fuel based recursive descent reader for one JSON value. -/
def parseVal : Nat → List Char → Option (PyVal × List Char)
  | 0, _ => Option.none
  | fuel + 1, cs =>
    match cs with
    | [] => Option.none
    | c :: rest =>
      match headKind c with
      | .digit =>
        match parseNat (c :: rest) with
        | some (m, r) => some (.int ((m : Int)), r)
        | Option.none => Option.none
      | .minus =>
        match parseNat rest with
        | some (m, r) => some (.int (-(m : Int)), r)
        | Option.none => Option.none
      | .quote =>
        match parseStrChars rest with
        | some (body, r) => some (.str (String.mk body), r)
        | Option.none => Option.none
      | .lbrack =>
        match parseItems fuel rest with
        | some (xs, r) => some (.list xs, r)
        | Option.none => Option.none
      | .lbrace =>
        match parseMembers fuel rest with
        | some (kvs, r) => some (.dict kvs, r)
        | Option.none => Option.none
      | .litn =>
        match rest with
        | 'u' :: 'l' :: 'l' :: r => some (.none, r)
        | _ => Option.none
      | .litt =>
        match rest with
        | 'r' :: 'u' :: 'e' :: r => some (.bool true, r)
        | _ => Option.none
      | .litf =>
        match rest with
        | 'a' :: 'l' :: 's' :: 'e' :: r => some (.bool false, r)
        | _ => Option.none
      | .other => Option.none

/-- Reads a list body after the opening bracket. -/
def parseItems : Nat → List Char → Option (List PyVal × List Char)
  | 0, _ => Option.none
  | fuel + 1, cs =>
    match cs with
    | [] => Option.none
    | c :: rest =>
      if c = ']' then some ([], rest)
      else
        match parseVal fuel (c :: rest) with
        | some (v, rest') =>
          match parseMoreItems fuel rest' with
          | some (vs, r) => some (v :: vs, r)
          | Option.none => Option.none
        | Option.none => Option.none

/-- Reads the continuation of a list body: a closing bracket or a comma
followed by the next element. -/
def parseMoreItems : Nat → List Char → Option (List PyVal × List Char)
  | 0, _ => Option.none
  | fuel + 1, cs =>
    match cs with
    | [] => Option.none
    | c :: rest =>
      if c = ']' then some ([], rest)
      else if c = ',' then
        match parseVal fuel rest with
        | some (v, rest') =>
          match parseMoreItems fuel rest' with
          | some (vs, r) => some (v :: vs, r)
          | Option.none => Option.none
        | Option.none => Option.none
      else Option.none

/-- Reads one dict entry: a quoted key, a colon and a value. -/
def parseMember : Nat → List Char → Option ((String × PyVal) × List Char)
  | 0, _ => Option.none
  | fuel + 1, cs =>
    match cs with
    | [] => Option.none
    | c :: rest =>
      if c = '\"' then
        match parseStrChars rest with
        | some (kbody, rest') =>
          match rest' with
          | [] => Option.none
          | c' :: rest'' =>
            if c' = ':' then
              match parseVal fuel rest'' with
              | some (v, r) => some ((String.mk kbody, v), r)
              | Option.none => Option.none
            else Option.none
        | Option.none => Option.none
      else Option.none

/-- Reads a dict body after the opening brace. -/
def parseMembers : Nat → List Char → Option (List (String × PyVal) × List Char)
  | 0, _ => Option.none
  | fuel + 1, cs =>
    match cs with
    | [] => Option.none
    | c :: rest =>
      if c = '\x7d' then some ([], rest)
      else
        match parseMember fuel (c :: rest) with
        | some (kv, rest') =>
          match parseMoreMembers fuel rest' with
          | some (kvs, r) => some (kv :: kvs, r)
          | Option.none => Option.none
        | Option.none => Option.none

/-- Reads the continuation of a dict body: a closing brace or a comma followed
by the next entry. -/
def parseMoreMembers : Nat → List Char → Option (List (String × PyVal) × List Char)
  | 0, _ => Option.none
  | fuel + 1, cs =>
    match cs with
    | [] => Option.none
    | c :: rest =>
      if c = '\x7d' then some ([], rest)
      else if c = ',' then
        match parseMember fuel rest with
        | some (kv, rest') =>
          match parseMoreMembers fuel rest' with
          | some (kvs, r) => some (kv :: kvs, r)
          | Option.none => Option.none
        | Option.none => Option.none
      else Option.none

end

/-- Model of `json.loads`: reads one JSON value consuming the whole input. -/
def json_loads (s : String) : Option PyVal :=
  match parseVal (s.data.length + 1) s.data with
  | some (v, []) => some v
  | _ => Option.none


/-- Characters allowed in well formed strings: the ASCII printable range, on
which the modelled serializer agrees with the Python library. -/
def strCharOk (c : Char) : Bool := 32 ≤ c.toNat && c.toNat ≤ 126

/-- Well formedness of a string value. -/
def strOk (s : String) : Bool := s.data.all strCharOk

/-- Absence of duplicate keys in a dict entry list. -/
def keysUnique : List (String × PyVal) → Bool
  | [] => true
  | (k, _) :: kvs => !(kvs.any (fun p => p.1 == k)) && keysUnique kvs

mutual

/-- Well formed values: ASCII printable strings and duplicate free dicts, the
region on which the serializer and reader are mutually inverse and agree with
the Python json module. -/
def wfV : PyVal → Bool
  | .none => true
  | .bool _ => true
  | .int _ => true
  | .str s => strOk s
  | .list xs => wfL xs
  | .dict kvs => keysUnique kvs && wfM kvs

/-- Well formedness of every element of a list. -/
def wfL : List PyVal → Bool
  | [] => true
  | x :: xs => wfV x && wfL xs

/-- Well formedness of every entry of a dict. -/
def wfM : List (String × PyVal) → Bool
  | [] => true
  | (k, v) :: kvs => strOk k && wfV v && wfM kvs

end

mutual

/-- Reader fuel sufficient for one value. -/
def needV : PyVal → Nat
  | .none => 1
  | .bool _ => 1
  | .int _ => 1
  | .str _ => 1
  | .list xs => 1 + needL xs
  | .dict kvs => 1 + needM kvs

/-- Reader fuel sufficient for a list body. -/
def needL : List PyVal → Nat
  | [] => 1
  | x :: xs => 1 + max (needV x) (needL xs)

/-- Reader fuel sufficient for a dict body. -/
def needM : List (String × PyVal) → Nat
  | [] => 1
  | (_, v) :: kvs => 1 + max (1 + needV v) (needM kvs)

end

/-- Decision that a character list does not begin with an ASCII digit. -/
def noDigit : List Char → Bool
  | [] => true
  | c :: _ => !isDigitC c

theorem charDigit_digitChar {d : Nat} (h : d < 10) : charDigit (digitChar d) = d := by
  interval_cases d <;> rfl

theorem isDigitC_digitChar {d : Nat} (h : d < 10) : isDigitC (digitChar d) = true := by
  interval_cases d <;> rfl

theorem natDigitsAux_eq {fuel m : Nat} (h : m ≤ fuel) :
    natDigitsAux fuel m = Nat.digits 10 m := by
  induction fuel generalizing m with
  | zero =>
    have hm : m = 0 := by omega
    subst hm
    simp [natDigitsAux]
  | succ fuel ih =>
    by_cases hm : m = 0
    · subst hm; simp [natDigitsAux]
    · show (if m = 0 then [] else m % 10 :: natDigitsAux fuel (m / 10)) = _
      have hdiv : m / 10 ≤ fuel := by
        have := Nat.div_lt_self (Nat.pos_of_ne_zero hm) (by norm_num : 1 < 10)
        omega
      rw [if_neg hm, ih hdiv, ← Nat.digits_def' (by norm_num : 1 < 10) (Nat.pos_of_ne_zero hm)]

theorem natDigits_eq (m : Nat) : natDigits m = Nat.digits 10 m :=
  natDigitsAux_eq le_rfl

theorem natChars_digit {m : Nat} {c : Char} (hc : c ∈ natChars m) : isDigitC c = true := by
  unfold natChars at hc
  split at hc
  · simp only [List.mem_singleton] at hc
    subst hc; rfl
  · rw [natDigits_eq] at hc
    rcases List.mem_map.mp hc with ⟨d, hd, rfl⟩
    exact isDigitC_digitChar (Nat.digits_lt_base (by norm_num) (List.mem_reverse.mp hd))

theorem natChars_ne_nil (m : Nat) : natChars m ≠ [] := by
  unfold natChars
  split
  · simp
  · next h =>
    rw [natDigits_eq]
    simp only [ne_eq, List.map_eq_nil_iff, List.reverse_eq_nil_iff]
    exact Nat.digits_ne_nil_iff_ne_zero.mpr h

theorem takeDigits_append {ds rest : List Char} (hds : ∀ c ∈ ds, isDigitC c = true)
    (hrest : noDigit rest = true) : takeDigits (ds ++ rest) = (ds, rest) := by
  induction ds with
  | nil =>
    simp only [List.nil_append]
    cases rest with
    | nil => rfl
    | cons c cs =>
      have hc : isDigitC c = false := by
        simpa [noDigit] using hrest
      simp [takeDigits, hc]
  | cons c ds ih =>
    have hc : isDigitC c = true := hds c (by simp)
    have ih' := ih (fun x hx => hds x (by simp [hx]))
    simp [takeDigits, hc, ih']

theorem foldl_digitChars (ds : List Nat) (hds : ∀ d ∈ ds, d < 10) (a : Nat) :
    List.foldl (fun acc c => 10 * acc + charDigit c) a (ds.reverse.map digitChar)
      = a * 10 ^ ds.length + Nat.ofDigits 10 ds := by
  induction ds generalizing a with
  | nil => simp [Nat.ofDigits]
  | cons d ds ih =>
    have hrev : ((d :: ds).reverse.map digitChar)
        = ds.reverse.map digitChar ++ [digitChar d] := by simp
    rw [hrev, List.foldl_append, ih (fun x hx => hds x (by simp [hx]))]
    show 10 * (a * 10 ^ ds.length + Nat.ofDigits 10 ds) + charDigit (digitChar d)
        = a * 10 ^ (d :: ds).length + Nat.ofDigits 10 (d :: ds)
    rw [charDigit_digitChar (hds d (by simp)), Nat.ofDigits_cons, List.length_cons]
    ring

theorem digitsVal_natChars (m : Nat) : digitsVal (natChars m) = m := by
  unfold digitsVal natChars
  split
  · next h => subst h; decide
  · rw [natDigits_eq]
    rw [foldl_digitChars _ (fun d hd => Nat.digits_lt_base (by norm_num) hd) 0]
    simp [Nat.ofDigits_digits]

theorem parseNat_natChars (m : Nat) {rest : List Char} (hrest : noDigit rest = true) :
    parseNat (natChars m ++ rest) = some (m, rest) := by
  unfold parseNat
  rw [takeDigits_append (fun c hc => natChars_digit hc) hrest]
  cases h : natChars m with
  | nil => exact absurd h (natChars_ne_nil m)
  | cons c cs =>
    have hv : digitsVal (c :: cs) = m := by rw [← h, digitsVal_natChars]
    simp [hv]

theorem parseStrChars_cons (c : Char) (rest : List Char) :
    parseStrChars (c :: rest)
      = if c = '\"' then some ([], rest)
        else if c = '\\' then
          match rest with
          | [] => Option.none
          | e :: rest' =>
            if e = '\"' ∨ e = '\\' ∨ e = '/' then
              match parseStrChars rest' with
              | some (cs, r) => some (e :: cs, r)
              | Option.none => Option.none
            else Option.none
        else
          match parseStrChars rest with
          | some (cs, r) => some (c :: cs, r)
          | Option.none => Option.none := by
  rw [parseStrChars.eq_def]

theorem parseStrChars_escL (cs rest : List Char) :
    parseStrChars (escL cs ++ '\"' :: rest) = some (cs, rest) := by
  induction cs with
  | nil =>
    simp only [escL, List.nil_append]
    rw [parseStrChars_cons, if_pos rfl]
  | cons c cs ih =>
    by_cases hq : c = '\"'
    · subst hq
      show parseStrChars ('\\' :: '\"' :: (escL cs ++ '\"' :: rest)) = _
      rw [parseStrChars_cons, if_neg (by decide), if_pos rfl]
      show (if ('\"' = '\"' ∨ '\"' = '\\' ∨ '\"' = '/') then
          match parseStrChars (escL cs ++ '\"' :: rest) with
          | some (cs2, r) => some ('\"' :: cs2, r)
          | Option.none => Option.none
        else Option.none) = some ('\"' :: cs, rest)
      rw [if_pos (Or.inl rfl), ih]
    · by_cases hb : c = '\\'
      · subst hb
        show parseStrChars ('\\' :: '\\' :: (escL cs ++ '\"' :: rest)) = _
        rw [parseStrChars_cons, if_neg (by decide), if_pos rfl]
        show (if ('\\' = '\"' ∨ '\\' = '\\' ∨ '\\' = '/') then
            match parseStrChars (escL cs ++ '\"' :: rest) with
            | some (cs2, r) => some ('\\' :: cs2, r)
            | Option.none => Option.none
          else Option.none) = some ('\\' :: cs, rest)
        rw [if_pos (Or.inr (Or.inl rfl)), ih]
      · show parseStrChars (escChar c ++ escL cs ++ '\"' :: rest) = _
        have hesc : escChar c = [c] := by simp [escChar, hq, hb]
        rw [hesc]
        show parseStrChars (c :: (escL cs ++ '\"' :: rest)) = _
        rw [parseStrChars_cons, if_neg hq, if_neg hb]
        show (match parseStrChars (escL cs ++ '\"' :: rest) with
          | some (cs2, r) => some (c :: cs2, r)
          | Option.none => Option.none) = some (c :: cs, rest)
        rw [ih]

theorem digit_ne_delims {c : Char} (h : isDigitC c = true) :
    c ≠ ']' ∧ c ≠ '\x7d' ∧ c ≠ ',' := by
  refine ⟨?_, ?_, ?_⟩ <;> rintro rfl <;> exact absurd h (by decide)

theorem dChars_head (v : PyVal) :
    ∃ c t, dChars v = c :: t ∧ c ≠ ']' ∧ c ≠ '\x7d' ∧ c ≠ ',' := by
  cases v with
  | int n =>
    show ∃ c t, intChars n = c :: t ∧ _
    unfold intChars
    split
    · refine ⟨'-', _, rfl, ?_, ?_, ?_⟩ <;> decide
    · cases h : natChars n.natAbs with
      | nil => exact absurd h (natChars_ne_nil _)
      | cons c cs =>
        have hc : isDigitC c = true := natChars_digit (by rw [h]; simp)
        exact ⟨c, cs, rfl, digit_ne_delims hc⟩
  | none => refine ⟨'n', _, rfl, ?_, ?_, ?_⟩ <;> decide
  | bool b =>
    cases b
    · refine ⟨'f', _, rfl, ?_, ?_, ?_⟩ <;> decide
    · refine ⟨'t', _, rfl, ?_, ?_, ?_⟩ <;> decide
  | str s => refine ⟨'\"', _, rfl, ?_, ?_, ?_⟩ <;> decide
  | list xs => refine ⟨'[', _, rfl, ?_, ?_, ?_⟩ <;> decide
  | dict kvs => refine ⟨'\x7b', _, rfl, ?_, ?_, ?_⟩ <;> decide

theorem parseVal_succ (fuel : Nat) (c : Char) (rest : List Char) :
    parseVal (fuel + 1) (c :: rest)
      = match headKind c with
        | .digit =>
          match parseNat (c :: rest) with
          | some (m, r) => some (.int ((m : Int)), r)
          | Option.none => Option.none
        | .minus =>
          match parseNat rest with
          | some (m, r) => some (.int (-(m : Int)), r)
          | Option.none => Option.none
        | .quote =>
          match parseStrChars rest with
          | some (body, r) => some (.str (String.mk body), r)
          | Option.none => Option.none
        | .lbrack =>
          match parseItems fuel rest with
          | some (xs, r) => some (.list xs, r)
          | Option.none => Option.none
        | .lbrace =>
          match parseMembers fuel rest with
          | some (kvs, r) => some (.dict kvs, r)
          | Option.none => Option.none
        | .litn =>
          match rest with
          | 'u' :: 'l' :: 'l' :: r => some (.none, r)
          | _ => Option.none
        | .litt =>
          match rest with
          | 'r' :: 'u' :: 'e' :: r => some (.bool true, r)
          | _ => Option.none
        | .litf =>
          match rest with
          | 'a' :: 'l' :: 's' :: 'e' :: r => some (.bool false, r)
          | _ => Option.none
        | .other => Option.none := rfl

theorem headKind_digit {c : Char} (h : isDigitC c = true) : headKind c = .digit := by
  simp [headKind, h]

theorem parseItems_val (fuel : Nat) (c : Char) (rest : List Char) (h : ¬ c = ']') :
    parseItems (fuel + 1) (c :: rest)
      = match parseVal fuel (c :: rest) with
        | some (v, rest2) =>
          match parseMoreItems fuel rest2 with
          | some (vs, r) => some (v :: vs, r)
          | Option.none => Option.none
        | Option.none => Option.none := by
  show (if c = ']' then some ([], rest) else _) = _
  rw [if_neg h]

theorem parseMembers_val (fuel : Nat) (c : Char) (rest : List Char) (h : ¬ c = '\x7d') :
    parseMembers (fuel + 1) (c :: rest)
      = match parseMember fuel (c :: rest) with
        | some (kv, rest2) =>
          match parseMoreMembers fuel rest2 with
          | some (kvs, r) => some (kv :: kvs, r)
          | Option.none => Option.none
        | Option.none => Option.none := by
  show (if c = '\x7d' then some ([], rest) else _) = _
  rw [if_neg h]

theorem parseVal_intChars (n : Int) (fuel : Nat) (rest : List Char)
    (hrest : noDigit rest = true) :
    parseVal (fuel + 1) (intChars n ++ rest) = some (.int n, rest) := by
  unfold intChars
  split
  · next hneg =>
    show parseVal (fuel + 1) ('-' :: (natChars n.natAbs ++ rest)) = _
    rw [parseVal_succ]
    show (match parseNat (natChars n.natAbs ++ rest) with
      | some (m, r) => some (PyVal.int (-(m : Int)), r)
      | Option.none => Option.none) = some (PyVal.int n, rest)
    rw [parseNat_natChars _ hrest]
    have hn : (-((n.natAbs : Int))) = n := by omega
    show some (PyVal.int (-((n.natAbs : Int))), rest) = some (PyVal.int n, rest)
    rw [hn]
  · next hneg =>
    cases h : natChars n.natAbs with
    | nil => exact absurd h (natChars_ne_nil _)
    | cons c cs =>
      have hc : isDigitC c = true := natChars_digit (by rw [h]; simp)
      show parseVal (fuel + 1) (c :: (cs ++ rest)) = _
      rw [parseVal_succ, headKind_digit hc]
      show (match parseNat (c :: (cs ++ rest)) with
        | some (m, r) => some (PyVal.int ((m : Int)), r)
        | Option.none => Option.none) = some (PyVal.int n, rest)
      have hcat : c :: (cs ++ rest) = natChars n.natAbs ++ rest := by
        rw [h, List.cons_append]
      rw [hcat, parseNat_natChars _ hrest]
      have hn : ((n.natAbs : Int)) = n := by omega
      show some (PyVal.int ((n.natAbs : Int)), rest) = some (PyVal.int n, rest)
      rw [hn]

theorem parseVal_strChars (s : String) (fuel : Nat) (rest : List Char) :
    parseVal (fuel + 1) (('\"' :: (escL s.data ++ ['\"'])) ++ rest) = some (.str s, rest) := by
  show parseVal (fuel + 1) ('\"' :: ((escL s.data ++ ['\"']) ++ rest)) = _
  rw [parseVal_succ]
  show (match parseStrChars ((escL s.data ++ ['\"']) ++ rest) with
    | some (body, r) => some (PyVal.str (String.mk body), r)
    | Option.none => Option.none) = some (PyVal.str s, rest)
  have hcat : (escL s.data ++ ['\"']) ++ rest = escL s.data ++ '\"' :: rest := by
    simp
  rw [hcat, parseStrChars_escL]

theorem parseMoreItems_comma (fuel : Nat) (rest : List Char) :
    parseMoreItems (fuel + 1) (',' :: rest)
      = match parseVal fuel rest with
        | some (v, rest') =>
          match parseMoreItems fuel rest' with
          | some (vs, r) => some (v :: vs, r)
          | Option.none => Option.none
        | Option.none => Option.none := rfl

theorem parseMember_quote (fuel : Nat) (rest : List Char) :
    parseMember (fuel + 1) ('\"' :: rest)
      = match parseStrChars rest with
        | some (kbody, rest') =>
          match rest' with
          | [] => Option.none
          | c' :: rest'' =>
            if c' = ':' then
              match parseVal fuel rest'' with
              | some (v, r) => some ((String.mk kbody, v), r)
              | Option.none => Option.none
            else Option.none
        | Option.none => Option.none := rfl

theorem parseMoreMembers_comma (fuel : Nat) (rest : List Char) :
    parseMoreMembers (fuel + 1) (',' :: rest)
      = match parseMember fuel rest with
        | some (kv, rest') =>
          match parseMoreMembers fuel rest' with
          | some (kvs, r) => some (kv :: kvs, r)
          | Option.none => Option.none
        | Option.none => Option.none := rfl

theorem noDigit_dCharsSepL (xs : List PyVal) (r : List Char) :
    noDigit (dCharsSepL xs ++ r) = true := by
  cases xs <;> rfl

theorem noDigit_dCharsSepM (kvs : List (String × PyVal)) (r : List Char) :
    noDigit (dCharsSepM kvs ++ r) = true := by
  cases kvs <;> rfl

theorem parseMember_entry (k : String) (v : PyVal) (g : Nat) (tail : List Char)
    (hval : parseVal g (dChars v ++ tail) = some (v, tail)) :
    parseMember (g + 1) ('\"' :: (escL k.data ++ '\"' :: ':' :: (dChars v ++ tail)))
      = some ((k, v), tail) := by
  rw [parseMember_quote, parseStrChars_escL]
  show (if (':' = ':') then
      match parseVal g (dChars v ++ tail) with
      | some (v2, r) => some ((String.mk k.data, v2), r)
      | Option.none => Option.none
    else Option.none) = some ((k, v), tail)
  rw [if_pos rfl, hval]

mutual

theorem rtV : ∀ (v : PyVal), wfV v = true → ∀ (fuel : Nat), needV v ≤ fuel →
    ∀ (rest : List Char), noDigit rest = true →
    parseVal fuel (dChars v ++ rest) = some (v, rest)
  | .none, _, fuel, hf, rest, _ => by
    obtain ⟨f, rfl⟩ : ∃ f, fuel = f + 1 := ⟨fuel - 1, by simp [needV] at hf; omega⟩
    rfl
  | .bool true, _, fuel, hf, rest, _ => by
    obtain ⟨f, rfl⟩ : ∃ f, fuel = f + 1 := ⟨fuel - 1, by simp [needV] at hf; omega⟩
    rfl
  | .bool false, _, fuel, hf, rest, _ => by
    obtain ⟨f, rfl⟩ : ∃ f, fuel = f + 1 := ⟨fuel - 1, by simp [needV] at hf; omega⟩
    rfl
  | .int n, _, fuel, hf, rest, hrest => by
    obtain ⟨f, rfl⟩ : ∃ f, fuel = f + 1 := ⟨fuel - 1, by simp [needV] at hf; omega⟩
    exact parseVal_intChars n f rest hrest
  | .str s, _, fuel, hf, rest, _ => by
    obtain ⟨f, rfl⟩ : ∃ f, fuel = f + 1 := ⟨fuel - 1, by simp [needV] at hf; omega⟩
    exact parseVal_strChars s f rest
  | .list xs, hwf, fuel, hf, rest, _ => by
    obtain ⟨f, rfl⟩ : ∃ f, fuel = f + 1 := ⟨fuel - 1, by simp [needV] at hf; omega⟩
    show parseVal (f + 1) ('[' :: (dCharsL xs ++ rest)) = some (.list xs, rest)
    rw [parseVal_succ]
    show (match parseItems f (dCharsL xs ++ rest) with
      | some (xs2, r) => some (PyVal.list xs2, r)
      | Option.none => Option.none) = some (PyVal.list xs, rest)
    rw [rtL xs (by simpa [wfV] using hwf) f (by simp [needV] at hf; omega) rest]
  | .dict kvs, hwf, fuel, hf, rest, _ => by
    obtain ⟨f, rfl⟩ : ∃ f, fuel = f + 1 := ⟨fuel - 1, by simp [needV] at hf; omega⟩
    show parseVal (f + 1) ('\x7b' :: (dCharsM kvs ++ rest)) = some (.dict kvs, rest)
    rw [parseVal_succ]
    show (match parseMembers f (dCharsM kvs ++ rest) with
      | some (kvs2, r) => some (PyVal.dict kvs2, r)
      | Option.none => Option.none) = some (PyVal.dict kvs, rest)
    have hwf' : wfM kvs = true := by
      simp [wfV, Bool.and_eq_true] at hwf
      exact hwf.2
    rw [rtM kvs hwf' f (by simp [needV] at hf; omega) rest]

theorem rtL : ∀ (xs : List PyVal), wfL xs = true → ∀ (fuel : Nat), needL xs ≤ fuel →
    ∀ (rest : List Char), parseItems fuel (dCharsL xs ++ rest) = some (xs, rest)
  | [], _, fuel, hf, rest => by
    obtain ⟨f, rfl⟩ : ∃ f, fuel = f + 1 := ⟨fuel - 1, by simp [needL] at hf; omega⟩
    rfl
  | x :: xs, hwf, fuel, hf, rest => by
    obtain ⟨f, rfl⟩ : ∃ f, fuel = f + 1 := ⟨fuel - 1, by simp [needL] at hf; omega⟩
    have hwfx : wfV x = true ∧ wfL xs = true := by
      simpa [wfL, Bool.and_eq_true] using hwf
    have hfx : needV x ≤ f := by simp [needL] at hf; omega
    have hfxs : needL xs ≤ f := by simp [needL] at hf; omega
    obtain ⟨c, t, hct, hne, _, _⟩ := dChars_head x
    show parseItems (f + 1) ((dChars x ++ dCharsSepL xs) ++ rest) = _
    rw [List.append_assoc, hct]
    show parseItems (f + 1) (c :: (t ++ (dCharsSepL xs ++ rest))) = _
    rw [parseItems_val f c _ hne]
    have hback : c :: (t ++ (dCharsSepL xs ++ rest)) = dChars x ++ (dCharsSepL xs ++ rest) := by
      rw [hct, List.cons_append]
    rw [hback, rtV x hwfx.1 f hfx _ (noDigit_dCharsSepL xs rest)]
    show (match parseMoreItems f (dCharsSepL xs ++ rest) with
      | some (vs, r) => some (x :: vs, r)
      | Option.none => Option.none) = some (x :: xs, rest)
    rw [rtSepL xs hwfx.2 f hfxs rest]

theorem rtSepL : ∀ (xs : List PyVal), wfL xs = true → ∀ (fuel : Nat), needL xs ≤ fuel →
    ∀ (rest : List Char), parseMoreItems fuel (dCharsSepL xs ++ rest) = some (xs, rest)
  | [], _, fuel, hf, rest => by
    obtain ⟨f, rfl⟩ : ∃ f, fuel = f + 1 := ⟨fuel - 1, by simp [needL] at hf; omega⟩
    rfl
  | x :: xs, hwf, fuel, hf, rest => by
    obtain ⟨f, rfl⟩ : ∃ f, fuel = f + 1 := ⟨fuel - 1, by simp [needL] at hf; omega⟩
    have hwfx : wfV x = true ∧ wfL xs = true := by
      simpa [wfL, Bool.and_eq_true] using hwf
    have hfx : needV x ≤ f := by simp [needL] at hf; omega
    have hfxs : needL xs ≤ f := by simp [needL] at hf; omega
    show parseMoreItems (f + 1) (',' :: ((dChars x ++ dCharsSepL xs) ++ rest)) = _
    rw [parseMoreItems_comma, List.append_assoc]
    rw [rtV x hwfx.1 f hfx _ (noDigit_dCharsSepL xs rest)]
    show (match parseMoreItems f (dCharsSepL xs ++ rest) with
      | some (vs, r) => some (x :: vs, r)
      | Option.none => Option.none) = some (x :: xs, rest)
    rw [rtSepL xs hwfx.2 f hfxs rest]

theorem rtM : ∀ (kvs : List (String × PyVal)), wfM kvs = true →
    ∀ (fuel : Nat), needM kvs ≤ fuel →
    ∀ (rest : List Char), parseMembers fuel (dCharsM kvs ++ rest) = some (kvs, rest)
  | [], _, fuel, hf, rest => by
    obtain ⟨f, rfl⟩ : ∃ f, fuel = f + 1 := ⟨fuel - 1, by simp [needM] at hf; omega⟩
    rfl
  | (k, v) :: kvs, hwf, fuel, hf, rest => by
    obtain ⟨f, rfl⟩ : ∃ f, fuel = f + 1 := ⟨fuel - 1, by simp [needM] at hf; omega⟩
    have hwfx : (strOk k = true ∧ wfV v = true) ∧ wfM kvs = true := by
      simpa [wfM, Bool.and_eq_true] using hwf
    have hg : ∃ g, f = g + 1 := ⟨f - 1, by simp [needM] at hf; omega⟩
    obtain ⟨g, rfl⟩ := hg
    have hfv : needV v ≤ g := by simp [needM] at hf; omega
    have hfkvs : needM kvs ≤ g + 1 := by simp [needM] at hf; omega
    show parseMembers (g + 1 + 1)
        ('\"' :: ((escL k.data ++ '\"' :: ':' :: (dChars v ++ dCharsSepM kvs)) ++ rest)) = _
    rw [parseMembers_val (g + 1) _ _ (by decide)]
    have hshape : '\"' :: ((escL k.data ++ '\"' :: ':' :: (dChars v ++ dCharsSepM kvs)) ++ rest)
        = '\"' :: (escL k.data ++ '\"' :: ':' :: (dChars v ++ (dCharsSepM kvs ++ rest))) := by
      simp
    rw [hshape]
    rw [parseMember_entry k v g (dCharsSepM kvs ++ rest)
      (rtV v hwfx.1.2 g hfv _ (noDigit_dCharsSepM kvs rest))]
    show (match parseMoreMembers (g + 1) (dCharsSepM kvs ++ rest) with
      | some (kvs2, r) => some ((k, v) :: kvs2, r)
      | Option.none => Option.none) = some ((k, v) :: kvs, rest)
    rw [rtSepM kvs hwfx.2 (g + 1) hfkvs rest]

theorem rtSepM : ∀ (kvs : List (String × PyVal)), wfM kvs = true →
    ∀ (fuel : Nat), needM kvs ≤ fuel →
    ∀ (rest : List Char), parseMoreMembers fuel (dCharsSepM kvs ++ rest) = some (kvs, rest)
  | [], _, fuel, hf, rest => by
    obtain ⟨f, rfl⟩ : ∃ f, fuel = f + 1 := ⟨fuel - 1, by simp [needM] at hf; omega⟩
    rfl
  | (k, v) :: kvs, hwf, fuel, hf, rest => by
    obtain ⟨f, rfl⟩ : ∃ f, fuel = f + 1 := ⟨fuel - 1, by simp [needM] at hf; omega⟩
    have hwfx : (strOk k = true ∧ wfV v = true) ∧ wfM kvs = true := by
      simpa [wfM, Bool.and_eq_true] using hwf
    have hg : ∃ g, f = g + 1 := ⟨f - 1, by simp [needM] at hf; omega⟩
    obtain ⟨g, rfl⟩ := hg
    have hfv : needV v ≤ g := by simp [needM] at hf; omega
    have hfkvs : needM kvs ≤ g + 1 := by simp [needM] at hf; omega
    show parseMoreMembers (g + 1 + 1)
        (',' :: ('\"' :: ((escL k.data ++ '\"' :: ':' :: (dChars v ++ dCharsSepM kvs)) ++ rest))) = _
    rw [parseMoreMembers_comma]
    have hshape : '\"' :: ((escL k.data ++ '\"' :: ':' :: (dChars v ++ dCharsSepM kvs)) ++ rest)
        = '\"' :: (escL k.data ++ '\"' :: ':' :: (dChars v ++ (dCharsSepM kvs ++ rest))) := by
      simp
    rw [hshape]
    rw [parseMember_entry k v g (dCharsSepM kvs ++ rest)
      (rtV v hwfx.1.2 g hfv _ (noDigit_dCharsSepM kvs rest))]
    show (match parseMoreMembers (g + 1) (dCharsSepM kvs ++ rest) with
      | some (kvs2, r) => some ((k, v) :: kvs2, r)
      | Option.none => Option.none) = some ((k, v) :: kvs, rest)
    rw [rtSepM kvs hwfx.2 (g + 1) hfkvs rest]

end

theorem intChars_ne_nil (n : Int) : intChars n ≠ [] := by
  unfold intChars
  split
  · simp
  · exact natChars_ne_nil _

theorem dChars_len_pos (v : PyVal) : 1 ≤ (dChars v).length := by
  obtain ⟨c, t, h, _, _, _⟩ := dChars_head v
  rw [h]
  simp

theorem dCharsSepL_len_pos (xs : List PyVal) : 1 ≤ (dCharsSepL xs).length := by
  cases xs <;> simp [dCharsSepL]

theorem dCharsSepM_len_pos (kvs : List (String × PyVal)) : 1 ≤ (dCharsSepM kvs).length := by
  cases kvs with
  | nil => simp [dCharsSepM]
  | cons kv kvs => rcases kv with ⟨k, v⟩; simp [dCharsSepM]

mutual

theorem needV_le : ∀ (v : PyVal), needV v ≤ (dChars v).length
  | .none => by simp [needV, dChars]
  | .bool b => by cases b <;> simp [needV, dChars]
  | .int n => by
    have := List.length_pos.mpr (intChars_ne_nil n)
    simp only [needV]
    show 1 ≤ (intChars n).length
    omega
  | .str s => by simp [needV, dChars]
  | .list xs => by
    have h := needL_le xs
    simp only [needV, dChars, List.length_cons]
    omega
  | .dict kvs => by
    have h := needM_le kvs
    simp only [needV, dChars, List.length_cons]
    omega

theorem needL_le : ∀ (xs : List PyVal), needL xs ≤ (dCharsL xs).length
  | [] => by simp [needL, dCharsL]
  | x :: xs => by
    have h1 := needV_le x
    have h2 := needSepL_le xs
    have h3 := dChars_len_pos x
    have h4 := dCharsSepL_len_pos xs
    simp only [needL, dCharsL, List.length_append]
    omega

theorem needSepL_le : ∀ (xs : List PyVal), needL xs ≤ (dCharsSepL xs).length
  | [] => by simp [needL, dCharsSepL]
  | x :: xs => by
    have h1 := needV_le x
    have h2 := needSepL_le xs
    simp only [needL, dCharsSepL, List.length_cons, List.length_append]
    omega

theorem needM_le : ∀ (kvs : List (String × PyVal)), needM kvs ≤ (dCharsM kvs).length
  | [] => by simp [needM, dCharsM]
  | (k, v) :: kvs => by
    have h1 := needV_le v
    have h2 := needSepM_le kvs
    simp only [needM, dCharsM, List.length_cons, List.length_append]
    omega

theorem needSepM_le : ∀ (kvs : List (String × PyVal)), needM kvs ≤ (dCharsSepM kvs).length
  | [] => by simp [needM, dCharsSepM]
  | (k, v) :: kvs => by
    have h1 := needV_le v
    have h2 := needSepM_le kvs
    simp only [needM, dCharsSepM, List.length_cons, List.length_append]
    omega

end

/-- The reader is a left inverse of the serializer on well formed values. -/
theorem json_loads_dumps {v : PyVal} (hwf : wfV v = true) : json_loads (dumps v) = some v := by
  have hlen : needV v ≤ (dChars v).length + 1 := le_trans (needV_le v) (by omega)
  have h := rtV v hwf ((dChars v).length + 1) hlen [] rfl
  rw [List.append_nil] at h
  show (match parseVal ((dChars v).length + 1) (dChars v) with
    | some (v2, []) => some v2
    | _ => Option.none) = some v
  rw [h]

theorem digit_ascii {c : Char} (h : isDigitC c = true) : strCharOk c = true := by
  simp only [isDigitC, Bool.and_eq_true, decide_eq_true_eq] at h
  simp only [strCharOk, Bool.and_eq_true, decide_eq_true_eq]
  omega

theorem escChar_ascii {c x : Char} (h : strCharOk c = true) (hx : x ∈ escChar c) :
    strCharOk x = true := by
  unfold escChar at hx
  split at hx
  · simp only [List.mem_cons, List.mem_singleton, List.not_mem_nil, or_false] at hx
    rcases hx with rfl | rfl <;> decide
  · split at hx
    · simp only [List.mem_cons, List.mem_singleton, List.not_mem_nil, or_false] at hx
      rcases hx with rfl | rfl <;> decide
    · simp only [List.mem_singleton] at hx
      subst hx
      exact h

theorem escL_ascii {cs : List Char} (h : ∀ c ∈ cs, strCharOk c = true) :
    ∀ x ∈ escL cs, strCharOk x = true := by
  induction cs with
  | nil => intro x hx; simp [escL] at hx
  | cons c cs ih =>
    intro x hx
    simp only [escL, List.mem_append] at hx
    rcases hx with hx | hx
    · exact escChar_ascii (h c (by simp)) hx
    · exact ih (fun c hc => h c (by simp [hc])) x hx

mutual

theorem dChars_ascii : ∀ (v : PyVal), wfV v = true → ∀ c ∈ dChars v, strCharOk c = true
  | .none, _ => by intro c hc; simp [dChars] at hc; rcases hc with rfl | rfl | rfl | rfl <;> decide
  | .bool true, _ => by
    intro c hc; simp [dChars] at hc; rcases hc with rfl | rfl | rfl | rfl <;> decide
  | .bool false, _ => by
    intro c hc; simp [dChars] at hc; rcases hc with rfl | rfl | rfl | rfl | rfl <;> decide
  | .int n, _ => by
    intro c hc
    show strCharOk c = true
    unfold dChars intChars at hc
    split at hc
    · simp only [List.mem_cons] at hc
      rcases hc with rfl | hc
      · decide
      · exact digit_ascii (natChars_digit hc)
    · exact digit_ascii (natChars_digit hc)
  | .str s, hwf => by
    intro c hc
    have hstr : ∀ x ∈ s.data, strCharOk x = true := by
      simpa [wfV, strOk, List.all_eq_true] using hwf
    simp only [dChars, List.mem_cons, List.mem_append] at hc
    rcases hc with rfl | hc | hc
    · decide
    · exact escL_ascii hstr c hc
    · simp at hc; subst hc; decide
  | .list xs, hwf => by
    intro c hc
    simp only [dChars, List.mem_cons] at hc
    rcases hc with rfl | hc
    · decide
    · exact dCharsL_ascii xs (by simpa [wfV] using hwf) c hc
  | .dict kvs, hwf => by
    intro c hc
    simp only [dChars, List.mem_cons] at hc
    rcases hc with rfl | hc
    · decide
    · have hwf' : wfM kvs = true := by
        simp [wfV, Bool.and_eq_true] at hwf
        exact hwf.2
      exact dCharsM_ascii kvs hwf' c hc

theorem dCharsL_ascii : ∀ (xs : List PyVal), wfL xs = true → ∀ c ∈ dCharsL xs, strCharOk c = true
  | [], _ => by intro c hc; simp [dCharsL] at hc; subst hc; decide
  | x :: xs, hwf => by
    intro c hc
    have hwfx : wfV x = true ∧ wfL xs = true := by
      simpa [wfL, Bool.and_eq_true] using hwf
    simp only [dCharsL, List.mem_append] at hc
    rcases hc with hc | hc
    · exact dChars_ascii x hwfx.1 c hc
    · exact dCharsSepL_ascii xs hwfx.2 c hc

theorem dCharsSepL_ascii : ∀ (xs : List PyVal), wfL xs = true →
    ∀ c ∈ dCharsSepL xs, strCharOk c = true
  | [], _ => by intro c hc; simp [dCharsSepL] at hc; subst hc; decide
  | x :: xs, hwf => by
    intro c hc
    have hwfx : wfV x = true ∧ wfL xs = true := by
      simpa [wfL, Bool.and_eq_true] using hwf
    simp only [dCharsSepL, List.mem_cons, List.mem_append] at hc
    rcases hc with rfl | hc | hc
    · decide
    · exact dChars_ascii x hwfx.1 c hc
    · exact dCharsSepL_ascii xs hwfx.2 c hc

theorem dCharsM_ascii : ∀ (kvs : List (String × PyVal)), wfM kvs = true →
    ∀ c ∈ dCharsM kvs, strCharOk c = true
  | [], _ => by intro c hc; simp [dCharsM] at hc; subst hc; decide
  | (k, v) :: kvs, hwf => by
    intro c hc
    have hwfx : (strOk k = true ∧ wfV v = true) ∧ wfM kvs = true := by
      simpa [wfM, Bool.and_eq_true] using hwf
    have hk : ∀ x ∈ k.data, strCharOk x = true := by
      simpa [strOk, List.all_eq_true] using hwfx.1.1
    simp only [dCharsM, List.mem_cons, List.mem_append] at hc
    rcases hc with rfl | hc | rfl | rfl | hc | hc
    · decide
    · exact escL_ascii hk c hc
    · decide
    · decide
    · exact dChars_ascii v hwfx.1.2 c hc
    · exact dCharsSepM_ascii kvs hwfx.2 c hc

theorem dCharsSepM_ascii : ∀ (kvs : List (String × PyVal)), wfM kvs = true →
    ∀ c ∈ dCharsSepM kvs, strCharOk c = true
  | [], _ => by intro c hc; simp [dCharsSepM] at hc; subst hc; decide
  | (k, v) :: kvs, hwf => by
    intro c hc
    have hwfx : (strOk k = true ∧ wfV v = true) ∧ wfM kvs = true := by
      simpa [wfM, Bool.and_eq_true] using hwf
    have hk : ∀ x ∈ k.data, strCharOk x = true := by
      simpa [strOk, List.all_eq_true] using hwfx.1.1
    simp only [dCharsSepM, List.mem_cons, List.mem_append] at hc
    rcases hc with rfl | rfl | hc | rfl | rfl | hc | hc
    · decide
    · decide
    · exact escL_ascii hk c hc
    · decide
    · decide
    · exact dChars_ascii v hwfx.1.2 c hc
    · exact dCharsSepM_ascii kvs hwfx.2 c hc

end

/-- The serialized form of a well formed value is itself a well formed string
value, so stringified JSON can be nested. -/
theorem wfV_str_dumps {v : PyVal} (hwf : wfV v = true) : wfV (.str (dumps v)) = true := by
  show strOk (dumps v) = true
  simp only [strOk, dumps, List.all_eq_true]
  intro c hc
  exact dChars_ascii v hwf c hc

/-- The unwrap loop of `UIAPI._safe_json_load`: applies `json.loads` while the
value is a string, at most three times; a failing parse keeps the string and
stops. -/
def unwrapLoop : Nat → PyVal → PyVal
  | 0, p => p
  | n + 1, p =>
    match p with
    | .str s =>
      match json_loads s with
      | some q => unwrapLoop n q
      | Option.none => p
    | _ => p

/-- Entry list of the final unwrapped value when it is a dict, else empty. -/
def safe_json_kvs (v : PyVal) : List (String × PyVal) :=
  match unwrapLoop 3 v with
  | .dict kvs => kvs
  | _ => []

/-- Translation of `UIAPI._safe_json_load`: unwrap stringified JSON up to
three levels and return the result when it is a dict, else an empty dict. -/
def safe_json_load (v : PyVal) : PyVal := .dict (safe_json_kvs v)

/-- Translation of `UIAPI.get_inbounds_list`, applied to the decoded response
of the list endpoint: a dict with `success` identically True yields its `obj`
entry when that is a list (else an empty list); any other dict yields
`obj or []` unchecked; a non dict response raises an AttributeError. -/
def get_inbounds_list (res : PyVal) : Except String PyVal :=
  match res with
  | .dict kvs =>
    match dictGet kvs "success" with
    | .bool true =>
      match pyOr (dictGet kvs "obj") (.list []) with
      | .list xs => .ok (.list xs)
      | _ => .ok (.list [])
    | _ => .ok (pyOr (dictGet kvs "obj") (.list []))
  | _ => .error "AttributeError"

/-- Translation of the decoding part of `UIAPI.get_clients_list` (source lines
152 to 157), applied to the settings field of the fetched inbound: parse a
string field (empty dict when unparseable), take a falsy field as an empty
dict, and return the clients entry or an empty list. -/
def decode_clients (settings_raw : PyVal) : Except String PyVal :=
  let settings :=
    match settings_raw with
    | .str s =>
      match json_loads s with
      | some v => v
      | Option.none => .dict []
    | v => pyOr v (.dict [])
  match pyGetAttr settings "clients" with
  | .ok c => .ok (pyOr c (.list []))
  | .error e => .error e

/-- Translation of the settings reencoding shared by `UIAPI.update_client` and
`UIAPI.add_traffic`: store the client list under the clients key of the
settings dict and serialize the dict back to a JSON string. -/
def encode_merge_settings (settings : List (String × PyVal)) (clients : List PyVal) : String :=
  dumps (.dict (dictSet settings "clients" (.list clients)))

/-- Translation of the update payload built by `UIAPI.update_client` and
`UIAPI.add_traffic` (the body posted to panel/inbound/update): every non
settings field is copied from the fetched inbound. -/
def build_update_payload (inbound_id : Int) (ikvs : List (String × PyVal))
    (settingsStr : String) : List (String × PyVal) :=
  [("id", .int inbound_id),
   ("remark", dictGetD ikvs "remark" (.str "")),
   ("port", dictGet ikvs "port"),
   ("protocol", dictGet ikvs "protocol"),
   ("settings", .str settingsStr),
   ("streamSettings", dictGet ikvs "streamSettings"),
   ("sniffing", dictGet ikvs "sniffing"),
   ("enable", dictGetD ikvs "enable" (.bool true)),
   ("tag", dictGet ikvs "tag")]

/-- Translation of the settings unpacking in `UIAPI.add_traffic` and
`UIAPI.update_client`: parse a string field (a raised ValueError when
unparseable), otherwise a dict copy. -/
def load_settings (sraw : PyVal) : Except String PyVal :=
  match sraw with
  | .str s =>
    match json_loads s with
    | some v => .ok v
    | Option.none => .error "ValueError"
  | v => pyDictCopy v

/-- Translation of the client loop of `UIAPI.add_traffic`: find the first
client whose email equals the argument; a zero current ceiling raises the
unlimited plan error before anything is modified, otherwise the byte
denominated delta is added; none when no client matches. -/
def adjustClients : List PyVal → String → Int → Except String (Option (List PyVal))
  | [], _, _ => .ok Option.none
  | c :: cs, email, add_gb =>
    match pyGetAttr c "email" with
    | .error e => .error e
    | .ok ev =>
      if pyEqStr ev email then
        match pyGetAttr c "totalGB" with
        | .error e => .error e
        | .ok tv =>
          match pyInt (pyOr tv (.int 0)) with
          | .error e => .error e
          | .ok current =>
            if current = 0 then .error "У клиента безлимитный тариф"
            else
              match pySetItem c "totalGB" (.int (current + add_gb * (1024 * 1024 * 1024))) with
              | .error e => .error e
              | .ok c2 => .ok (some (c2 :: cs))
      else
        match adjustClients cs email add_gb with
        | .error e => .error e
        | .ok Option.none => .ok Option.none
        | .ok (some cs2) => .ok (some (c :: cs2))

/-- Translation of `UIAPI.add_traffic` up to the update request: the fetched
inbound is passed in, and the returned payload is the body the function would
post to panel/inbound/update; every error result is raised before any update
request is issued. -/
def add_traffic (inbound : PyVal) (inbound_id : Int) (email : String) (add_gb : Int) :
    Except String (List (String × PyVal)) :=
  if inbound.truthy = false then
    .error ("Inbound " ++ intStr inbound_id ++ " не найден")
  else
    match pyGetItem inbound "settings" with
    | .error e => .error e
    | .ok sraw =>
      match load_settings sraw with
      | .error e => .error e
      | .ok settings =>
        match pyGetAttrD settings "clients" (.list []) with
        | .error e => .error e
        | .ok clientsVal =>
          match asPyList clientsVal with
          | .error e => .error e
          | .ok clients =>
            match adjustClients clients email add_gb with
            | .error e => .error e
            | .ok Option.none => .error ("Клиент " ++ email ++ " не найден")
            | .ok (some clients2) =>
              match asDictKvs settings, asDictKvs inbound with
              | .ok skvs, .ok ikvs =>
                .ok (build_update_payload inbound_id ikvs
                  (encode_merge_settings skvs clients2))
              | _, _ => .error "TypeError"

/-- Translation of the client loop of `UIAPI.update_client`: set the new byte
denominated ceiling on the first matching client and optionally the new
expiry time; none when no client matches. -/
def setClientsTotal : List PyVal → String → Int → Option Int →
    Except String (Option (List PyVal))
  | [], _, _, _ => .ok Option.none
  | c :: cs, email, total_gb, expiry =>
    match pyGetAttr c "email" with
    | .error e => .error e
    | .ok ev =>
      if pyEqStr ev email then
        match pySetItem c "totalGB" (.int (total_gb * (1024 * 1024 * 1024))) with
        | .error e => .error e
        | .ok c2 =>
          match expiry with
          | some ex =>
            match pySetItem c2 "expiryTime" (.int ex) with
            | .error e => .error e
            | .ok c3 => .ok (some (c3 :: cs))
          | Option.none => .ok (some (c2 :: cs))
      else
        match setClientsTotal cs email total_gb expiry with
        | .error e => .error e
        | .ok Option.none => .ok Option.none
        | .ok (some cs2) => .ok (some (c :: cs2))

/-- Translation of `UIAPI.update_client` up to the update request, like
`add_traffic`. -/
def update_client (inbound : PyVal) (inbound_id : Int) (email : String) (total_gb : Int)
    (expiry_time_ms : Option Int) : Except String (List (String × PyVal)) :=
  if inbound.truthy = false then
    .error ("Inbound " ++ intStr inbound_id ++ " не найден")
  else
    match pyGetItem inbound "settings" with
    | .error e => .error e
    | .ok sraw =>
      match load_settings sraw with
      | .error e => .error e
      | .ok settings =>
        match pyGetAttrD settings "clients" (.list []) with
        | .error e => .error e
        | .ok clientsVal =>
          match asPyList clientsVal with
          | .error e => .error e
          | .ok clients =>
            match setClientsTotal clients email total_gb expiry_time_ms with
            | .error e => .error e
            | .ok Option.none => .error ("Клиент " ++ email ++ " не найден в clients")
            | .ok (some clients2) =>
              match asDictKvs settings, asDictKvs inbound with
              | .ok skvs, .ok ikvs =>
                .ok (build_update_payload inbound_id ikvs
                  (encode_merge_settings skvs clients2))
              | _, _ => .error "TypeError"

/-- Translation of the public key selection in `UIAPI.try_get_client_vless_link`:
the outer realitySettings publicKey first, then the publicKey of the nested
(possibly stringified) settings, then the empty string. -/
def select_public_key (rs : List (String × PyVal)) : PyVal :=
  let settings_inner := safe_json_kvs (pyOr (dictGet rs "settings") (.dict []))
  pyOr (dictGet rs "publicKey") (pyOr (dictGet settings_inner "publicKey") (.str ""))

/-- Translation of the short id selection: the first shortIds entry when the
field is a nonempty list, else the empty string. -/
def select_short_id (rs : List (String × PyVal)) : PyVal :=
  match pyOr (dictGet rs "shortIds") (.list []) with
  | .list (x :: _) => x
  | _ => .str ""

/-- Translation of the SNI selection: the first serverNames entry when the
field is a nonempty list, else the resolved host. -/
def select_sni (rs : List (String × PyVal)) (host : String) : PyVal :=
  match pyOr (dictGet rs "serverNames") (.list [.str host]) with
  | .list (x :: _) => x
  | _ => .str host

/-- Translation of the fingerprint selection: the TLS settings fingerprint,
then the Reality settings fingerprint, then the literal chrome. -/
def select_fp (tls rs : List (String × PyVal)) : PyVal :=
  pyOr (dictGet tls "fingerprint") (pyOr (dictGet rs "fingerprint") (.str "chrome"))

/-- Translation of the flow selection: the client flow field or the literal
default, stripped of surrounding whitespace. -/
def select_flow (client : PyVal) : Except String String :=
  match pyGetAttr client "flow" with
  | .error e => .error e
  | .ok f => pyStrip (pyOr f (.str "xtls-rprx-vision"))

/-- Result of one polling iteration of `UIAPI.try_get_client_vless_link`:
sleep and retry, permanent failure for a client without credential, or the
assembled link. -/
inductive StepRes where
  | retry
  | noCredential
  | link (s : String)
deriving Repr, DecidableEq

/-- The decoded realitySettings entry list of a raw streamSettings field, as
computed in `UIAPI.try_get_client_vless_link` (two chained safe loads). -/
def reality_kvs (ssRaw : PyVal) : List (String × PyVal) :=
  safe_json_kvs (pyOr (dictGet (safe_json_kvs (pyOr ssRaw (.dict []))) "realitySettings")
    (.dict []))

/-- The decoded tlsSettings entry list of a raw streamSettings field. -/
def tls_kvs (ssRaw : PyVal) : List (String × PyVal) :=
  safe_json_kvs (pyOr (dictGet (safe_json_kvs (pyOr ssRaw (.dict []))) "tlsSettings")
    (.dict []))

/-- Translation of the link assembly part of `UIAPI.try_get_client_vless_link`
(source lines 186 to 225) once the client has been located. -/
def buildLink (host email : String) (inbound client : PyVal) : Except String StepRes :=
  match pyGetAttr inbound "streamSettings" with
  | .error e => .error e
  | .ok ssRaw =>
    match pyGetAttr inbound "port" with
    | .error e => .error e
    | .ok portRaw =>
      match pyGetAttr client "id" with
      | .error e => .error e
      | .ok idv =>
        match pyGetAttr client "password" with
        | .error e => .error e
        | .ok pwv =>
          if (pyOr idv pwv).truthy = false then .ok .noCredential
          else
            match select_flow client with
            | .error e => .error e
            | .ok flow =>
              match pyGetAttr inbound "remark" with
              | .error e => .error e
              | .ok remRaw =>
                match pyStrip (pyOr remRaw (.str "")) with
                | .error e => .error e
                | .ok remark =>
                  .ok (.link ("vless://" ++ pyStr (pyOr idv pwv) ++ "@" ++ host ++ ":"
                    ++ pyStr (pyOr portRaw (.str "")) ++ "?"
                    ++ String.intercalate "&" ["type=tcp", "security=reality",
                      "pbk=" ++ pyStr (select_public_key (reality_kvs ssRaw)),
                      "fp=" ++ pyStr (select_fp (tls_kvs ssRaw) (reality_kvs ssRaw)),
                      "sni=" ++ pyStr (select_sni (reality_kvs ssRaw) host),
                      "sid=" ++ pyStr (select_short_id (reality_kvs ssRaw)),
                      "spx=%2F", "flow=" ++ flow]
                    ++ "#" ++ (if remark = "" then email else remark ++ "-" ++ email)))

/-- Translation of the client search generator in
`UIAPI.try_get_client_vless_link`: the first client whose stripped lowercased
email equals the target. -/
def findClient : List PyVal → String → Except String (Option PyVal)
  | [], _ => .ok Option.none
  | c :: cs, target =>
    match pyGetAttr c "email" with
    | .error e => .error e
    | .ok ev =>
      match pyStrip (pyOr ev (.str "")) with
      | .error e => .error e
      | .ok s =>
        if pyLower s = target then .ok (some c) else findClient cs target

/-- One iteration of the polling loop of `UIAPI.try_get_client_vless_link`,
applied to the inbound fetched in that iteration. -/
def pollStep (host email : String) (inbound : PyVal) : Except String StepRes :=
  if inbound.truthy = false then .ok .retry
  else
    match pyGetAttr inbound "settings" with
    | .error e => .error e
    | .ok sraw =>
      match pyGetAttr inbound "clients" with
      | .error e => .error e
      | .ok craw =>
        match asPyList (pyOr (dictGet (safe_json_kvs (pyOr sraw (.dict []))) "clients")
            (pyOr craw (.list []))) with
        | .error e => .error e
        | .ok clients =>
          match findClient clients (pyLower (pyTrim email)) with
          | .error e => .error e
          | .ok Option.none => .ok .retry
          | .ok (some client) => buildLink host email inbound client

/-- Number of 0.4 second polling iterations that fit into the wait window. -/
def numIters (w : Nat) : Nat := (5 * w + 1) / 2

/-- The polling loop of `UIAPI.try_get_client_vless_link`: one `get_inbound`
result per iteration (the stream `polls`), retrying on a missing inbound or
client, stopping early with none on a missing credential and with the link on
success; none when the window closes. -/
def pollLoop (host email : String) (polls : Nat → PyVal) :
    Nat → Nat → Except String (Option String)
  | 0, _ => .ok Option.none
  | fuel + 1, i =>
    match pollStep host email (polls i) with
    | .error e => .error e
    | .ok .retry => pollLoop host email polls fuel (i + 1)
    | .ok .noCredential => .ok Option.none
    | .ok (.link s) => .ok (some s)

/-- Translation of `UIAPI.try_get_client_vless_link`: polls every 0.4 seconds
until `wait_seconds` (at least one second) elapses; `polls i` is the inbound
returned by `get_inbound` in iteration `i`. -/
def try_get_client_vless_link (host : String) (polls : Nat → PyVal) (email : String)
    (wait_seconds : Nat) : Except String (Option String) :=
  pollLoop host email polls (numIters (max 1 wait_seconds)) 0

/-- Translation of `UIAPI.get_client_vless_link`: resolution with the fixed
twelve second window, raising a LookupError when no link was produced. -/
def get_client_vless_link (host : String) (polls : Nat → PyVal) (inbound_id : Int)
    (email : String) : Except String String :=
  match try_get_client_vless_link host polls email 12 with
  | .error e => .error e
  | .ok Option.none =>
    .error ("Клиент " ++ email ++ " не найден в inbound " ++ intStr inbound_id)
  | .ok (some link) => .ok link

/-- Network and randomness environment of one `UIAPI.add_client` call: the
decoded response of the inbound list endpoint, the decoded responses of the
successive addClient path attempts (an error marks a raised request
exception), the generated UUID, the resolved server host, and the inbound
states seen by the link polling. -/
structure AddClientEnv where
  list_res : PyVal
  add_res : List (Except String PyVal)
  new_uuid : String
  host : String
  polls : Nat → PyVal

/-- The check `res.get("success") is True` on one addClient response. -/
def isSuccessDict (res : PyVal) : Bool :=
  match res with
  | .dict kvs =>
    match dictGet kvs "success" with
    | .bool true => true
    | _ => false
  | _ => false

/-- Translation of the path attempt loop of `UIAPI.add_client`: walk the
responses of the tried paths keeping the last response, stopping at the first
success; a raised exception is recorded as a success False dict. -/
def attemptPaths (last : PyVal) : List (Except String PyVal) → Bool × PyVal
  | [] => (false, last)
  | r :: rs =>
    match r with
    | .error e => attemptPaths (.dict [("success", .bool false), ("msg", .str e)]) rs
    | .ok res => if isSuccessDict res then (true, res) else attemptPaths res rs

/-- The id scan `any(str(ib.get("id")) == str(inbound_id) ...)` over the
fetched inbound list. -/
def anyIdMatch : List PyVal → Int → Except String Bool
  | [], _ => .ok false
  | ib :: ibs, inbound_id =>
    match pyGetAttr ib "id" with
    | .error e => .error e
    | .ok idv =>
      if pyStr idv = intStr inbound_id then .ok true else anyIdMatch ibs inbound_id

/-- The id list comprehension used in the inbound not found message. -/
def listIds : List PyVal → Except String (List PyVal)
  | [] => .ok []
  | ib :: ibs =>
    match pyGetAttr ib "id" with
    | .error e => .error e
    | .ok idv =>
      match listIds ibs with
      | .error e => .error e
      | .ok ids => .ok (idv :: ids)

/-- The client object built by `UIAPI.add_client` (GB converted to bytes at
1024 cubed bytes per GB, the flow key only present for a truthy flow). -/
def build_client_obj (new_uuid email : String) (limit_ip total_gb expiry_time_ms : Int)
    (flow : Option String) : PyVal :=
  .dict ([("id", .str new_uuid), ("email", .str email),
    ("limitIp", .int (if limit_ip ≠ 0 then limit_ip else 0)),
    ("totalGB", .int (if total_gb ≠ 0 then total_gb * (1024 * 1024 * 1024) else 0)),
    ("expiryTime", .int (if expiry_time_ms ≠ 0 then expiry_time_ms else 0))]
    ++ (match flow with
        | some f => if f ≠ "" then [("flow", .str f)] else []
        | Option.none => []))

/-- Translation of `UIAPI.add_client`. The `wait_seconds` parameter of the
source signature is kept; the body never reads it, because link resolution
goes through `get_client_vless_link` and its fixed twelve second window. -/
def add_client (env : AddClientEnv) (inbound_id : Int) (email : String)
    (limit_ip total_gb expiry_time_ms : Int) (flow : Option String)
    (wait_seconds : Nat) : Except String String :=
  match get_inbounds_list env.list_res with
  | .error e => .error e
  | .ok inboundsVal =>
    match asPyList inboundsVal with
    | .error e => .error e
    | .ok inbounds =>
      match anyIdMatch inbounds inbound_id with
      | .error e => .error e
      | .ok found =>
        if found = false then
          match listIds inbounds with
          | .error e => .error e
          | .ok ids =>
            .error ("Inbound " ++ intStr inbound_id ++ " не найден. Доступны: "
              ++ pyStr (.list ids))
        else
          let settingsStr := dumps (.dict [("clients",
            .list [build_client_obj env.new_uuid email limit_ip total_gb expiry_time_ms flow])])
          match attemptPaths (.dict []) (env.add_res.take 4) with
          | (false, last) => .error ("addClient failed: " ++ pyStr last)
          | (true, _) => get_client_vless_link env.host env.polls inbound_id email

/-- The generator check `any(c.get("email") == email for c in existing_clients)`
in `admin_plan_pick_callback`. -/
def anyEmailMatch : List PyVal → String → Except String Bool
  | [], _ => .ok false
  | c :: cs, email =>
    match pyGetAttr c "email" with
    | .error e => .error e
    | .ok ev =>
      if pyEqStr ev email then .ok true else anyEmailMatch cs email

/-- Outcome of the provisioning part of `admin_plan_pick_callback` in
`bot.py`: either the existing client was reported (with or without a resolved
link, no addClient request issued), or `add_client` was invoked. -/
inductive AdminOutcome where
  | existingWithLink (link : String)
  | existingNoLink
  | createAttempted (result : Except String String)
deriving Repr

/-- Translation of `admin_plan_pick_callback` (bot.py lines 815 to 835) from
the existing client check on: when the email is already present the handler
replies with the resolved link of the existing client (or a plain notice when
resolution raises) and returns without calling `add_client`; otherwise it
calls `add_client` with the tariff parameters and a fifteen second wait. -/
def admin_plan_pick (existing_clients : List PyVal) (email : String) (env : AddClientEnv)
    (inbound_id : Int) (limit_ip total_gb expiry_time_ms : Int) (flow : Option String) :
    Except String AdminOutcome :=
  match anyEmailMatch existing_clients email with
  | .error e => .error e
  | .ok true =>
    match get_client_vless_link env.host env.polls inbound_id email with
    | .ok link => .ok (.existingWithLink link)
    | .error _ => .ok (.existingNoLink)
  | .ok false =>
    .ok (.createAttempted (add_client env inbound_id email limit_ip total_gb
      expiry_time_ms flow 15))

theorem strcat (a b c : String) (h : a ++ b = c) (t : String) : a ++ (b ++ t) = c ++ t := by
  rw [← String.append_assoc, h]

theorem vless_link_flat (cred host portStr pbk fp sni sid flow tag : String) :
    "vless://" ++ cred ++ "@" ++ host ++ ":" ++ portStr ++ "?"
      ++ String.intercalate "&" ["type=tcp", "security=reality", "pbk=" ++ pbk, "fp=" ++ fp,
          "sni=" ++ sni, "sid=" ++ sid, "spx=%2F", "flow=" ++ flow]
      ++ "#" ++ tag
    = "vless://" ++ cred ++ "@" ++ host ++ ":" ++ portStr ++ "?type=tcp&security=reality&pbk="
      ++ pbk ++ "&fp=" ++ fp ++ "&sni=" ++ sni ++ "&sid=" ++ sid ++ "&spx=%2F&flow=" ++ flow
      ++ "#" ++ tag := by
  simp only [String.intercalate, String.intercalate.go, String.append_assoc]
  rw [strcat "&" "flow=" "&flow=" rfl,
    strcat "spx=%2F" "&flow=" "spx=%2F&flow=" rfl,
    strcat "&" "spx=%2F&flow=" "&spx=%2F&flow=" rfl,
    strcat "&" "sid=" "&sid=" rfl,
    strcat "&" "sni=" "&sni=" rfl,
    strcat "&" "fp=" "&fp=" rfl,
    strcat "&" "pbk=" "&pbk=" rfl,
    strcat "security=reality" "&pbk=" "security=reality&pbk=" rfl,
    strcat "&" "security=reality&pbk=" "&security=reality&pbk=" rfl,
    strcat "type=tcp" "&security=reality&pbk=" "type=tcp&security=reality&pbk=" rfl,
    strcat "?" "type=tcp&security=reality&pbk=" "?type=tcp&security=reality&pbk=" rfl]

theorem dictGet_dictSet (kvs : List (String × PyVal)) (k : String) (v : PyVal) :
    dictGet (dictSet kvs k v) k = v := by
  induction kvs with
  | nil => simp [dictSet, dictGet]
  | cons kv kvs ih =>
    rcases kv with ⟨k0, v0⟩
    by_cases h : k0 = k
    · subst h; simp [dictSet, dictGet]
    · have hb : (k0 == k) = false := by simp [h]
      simp [dictSet, dictGet, hb, ih]

theorem dictGetD_eq_dictGet {kvs : List (String × PyVal)} {k : String}
    (h : hasKey kvs k = true) (d : PyVal) : dictGetD kvs k d = dictGet kvs k := by
  induction kvs with
  | nil => simp [hasKey] at h
  | cons kv kvs ih =>
    rcases kv with ⟨k0, v0⟩
    by_cases h0 : k0 = k
    · subst h0; simp [dictGetD, dictGet]
    · have hb : (k0 == k) = false := by simp [h0]
      simp only [hasKey, hb, Bool.false_or] at h
      simp [dictGetD, dictGet, hb, ih h]

/-- Projection of the final unwrapped value to dict entries. -/
def safeOf (p : PyVal) : List (String × PyVal) :=
  match p with
  | .dict kvs => kvs
  | _ => []

theorem safe_json_load_eq (v : PyVal) :
    safe_json_load v = .dict (safeOf (unwrapLoop 3 v)) := rfl

theorem safe_json_kvs_eq (v : PyVal) : safe_json_kvs v = safeOf (unwrapLoop 3 v) := rfl

theorem unwrapLoop_str (n : Nat) (s : String) :
    unwrapLoop (n + 1) (.str s)
      = match json_loads s with
        | some q => unwrapLoop n q
        | Option.none => .str s := rfl

theorem unwrapLoop_loads {s : String} {q : PyVal} (n : Nat) (h : json_loads s = some q) :
    unwrapLoop (n + 1) (.str s) = unwrapLoop n q := by
  rw [unwrapLoop_str, h]

/-- C10: the `wait_seconds` argument of `add_client` has no effect on its
result: the body never reads it, and link resolution after a successful
creation goes through `get_client_vless_link`, whose polling window is the
fixed twelve seconds. -/
theorem claim10_wait_seconds_irrelevant (env : AddClientEnv) (inbound_id : Int)
    (email : String) (limit_ip total_gb expiry_time_ms : Int) (flow : Option String)
    (w1 w2 : Nat) :
    add_client env inbound_id email limit_ip total_gb expiry_time_ms flow w1
      = add_client env inbound_id email limit_ip total_gb expiry_time_ms flow w2 := rfl

/-- C3: `_safe_json_load` is total, maps a well formed plain dict, its single
JSON string encoding and its double JSON string encoding to the same dict,
and returns the empty dict on any input whose three step unwrapping never
reaches a dict, in particular on a string that does not parse as JSON. -/
theorem claim3_safe_json_load (kvs : List (String × PyVal))
    (hwf : wfV (.dict kvs) = true) :
    safe_json_load (.dict kvs) = .dict kvs
    ∧ safe_json_load (.str (dumps (.dict kvs))) = .dict kvs
    ∧ safe_json_load (.str (dumps (.str (dumps (.dict kvs))))) = .dict kvs
    ∧ (∀ v : PyVal, (∀ l, unwrapLoop 3 v ≠ .dict l) → safe_json_load v = .dict [])
    ∧ (∀ s : String, json_loads s = Option.none → safe_json_load (.str s) = .dict []) := by
  refine ⟨rfl, ?_, ?_, ?_, ?_⟩
  · have h3 : unwrapLoop 3 (.str (dumps (.dict kvs))) = .dict kvs := by
      rw [show (3 : Nat) = 2 + 1 from rfl, unwrapLoop_loads 2 (json_loads_dumps hwf)]
      rfl
    rw [safe_json_load_eq, h3]
    rfl
  · have h3 : unwrapLoop 3 (.str (dumps (.str (dumps (.dict kvs))))) = .dict kvs := by
      rw [show (3 : Nat) = 2 + 1 from rfl,
        unwrapLoop_loads 2 (json_loads_dumps (wfV_str_dumps hwf)),
        show (2 : Nat) = 1 + 1 from rfl,
        unwrapLoop_loads 1 (json_loads_dumps hwf)]
      rfl
    rw [safe_json_load_eq, h3]
    rfl
  · intro v hv
    rw [safe_json_load_eq]
    cases h : unwrapLoop 3 v with
    | dict l => exact absurd h (hv l)
    | none => rfl
    | bool b => rfl
    | int n => rfl
    | str s => rfl
    | list xs => rfl
  · intro s hs
    rw [safe_json_load_eq]
    rw [show (3 : Nat) = 2 + 1 from rfl, unwrapLoop_str, hs]
    rfl

theorem claim3_safe_json_load_witness :
    safe_json_load (.str (dumps (.str (dumps (.dict [("a", .int 1)])))))
      = .dict [("a", .int 1)] :=
  (claim3_safe_json_load [("a", .int 1)] (by rfl)).2.2.1

/-- C5 counterexample: a bare list response makes `get_inbounds_list` raise an
AttributeError (the code calls `.get` on the list) instead of returning the
list, contradicting the claimed bare list tolerance. -/
theorem claim5_bare_list_raises :
    get_inbounds_list (.list [.dict [("id", .int 1)]]) = .error "AttributeError" := rfl

theorem get_inbounds_list_dict (kvs : List (String × PyVal)) :
    get_inbounds_list (.dict kvs)
      = match dictGet kvs "success" with
        | .bool true =>
          match pyOr (dictGet kvs "obj") (.list []) with
          | .list xs => .ok (.list xs)
          | _ => .ok (.list [])
        | _ => .ok (pyOr (dictGet kvs "obj") (.list [])) := rfl

/-- C5 amended: `get_inbounds_list` returns the `obj` list of an envelope with
`success` identically True (and an empty list when that `obj` is not a list);
for any other dict response it returns `obj or []` without a list check; a non
dict response, in particular a bare list, raises an AttributeError instead of
being returned. -/
theorem claim5_response_shapes :
    (∀ kvs xs, dictGet kvs "success" = .bool true → dictGet kvs "obj" = .list xs →
      get_inbounds_list (.dict kvs) = .ok (.list xs))
    ∧ (∀ kvs w, dictGet kvs "success" = .bool true → dictGet kvs "obj" = w →
        (∀ ys, w ≠ .list ys) → get_inbounds_list (.dict kvs) = .ok (.list []))
    ∧ (∀ kvs, dictGet kvs "success" ≠ .bool true →
        get_inbounds_list (.dict kvs) = .ok (pyOr (dictGet kvs "obj") (.list [])))
    ∧ (∀ v : PyVal, (∀ kvs, v ≠ .dict kvs) →
        get_inbounds_list v = .error "AttributeError") := by
  refine ⟨?_, ?_, ?_, ?_⟩
  · intro kvs xs hs ho
    rw [get_inbounds_list_dict, hs]
    show (match pyOr (dictGet kvs "obj") (.list []) with
      | PyVal.list xs2 => Except.ok (PyVal.list xs2)
      | _ => Except.ok (PyVal.list [])) = Except.ok (PyVal.list xs)
    rw [ho]
    cases xs with
    | nil => rfl
    | cons x xs => rfl
  · intro kvs w hs ho hw
    rw [get_inbounds_list_dict, hs]
    show (match pyOr (dictGet kvs "obj") (.list []) with
      | PyVal.list xs2 => Except.ok (PyVal.list xs2)
      | _ => Except.ok (PyVal.list [])) = Except.ok (PyVal.list [])
    rw [ho]
    by_cases ht : w.truthy = true
    · rw [show pyOr w (.list []) = w from by simp [pyOr, ht]]
      cases w with
      | list ys => exact absurd rfl (hw ys)
      | none => rfl
      | bool b => rfl
      | int n => rfl
      | str s => rfl
      | dict l => rfl
    · rw [show pyOr w (.list []) = .list [] from by simp [pyOr, ht]]
  · intro kvs hs
    rw [get_inbounds_list_dict]
    cases h : dictGet kvs "success" with
    | bool b =>
      cases b with
      | true => exact absurd h hs
      | false => rfl
    | none => rfl
    | int n => rfl
    | str s => rfl
    | list xs => rfl
    | dict l => rfl
  · intro v hv
    cases v with
    | dict kvs => exact absurd rfl (hv kvs)
    | none => rfl
    | bool b => rfl
    | int n => rfl
    | str s => rfl
    | list xs => rfl

theorem claim5_response_shapes_witness :
    get_inbounds_list (.dict [("success", .bool true), ("obj", .list [.dict [("id", .int 7)]])])
      = .ok (.list [.dict [("id", .int 7)]]) :=
  claim5_response_shapes.1 _ _ rfl rfl

/-- C4: the client settings codec round trips: encoding a well formed client
list into the settings field (the `json.dumps` merge done by `update_client`
and `add_traffic`) and decoding it back (the `json.loads` read done by
`get_clients_list`) returns the same client list, and every non settings
field of the update payload (port, protocol, streamSettings, sniffing, tag
unconditionally; remark and enable whenever the inbound carries them) is
copied unchanged from the fetched inbound. -/
theorem claim4_codec_round_trip (settings : List (String × PyVal)) (clients : List PyVal)
    (inbound_id : Int) (ikvs : List (String × PyVal)) (settingsStr : String)
    (hwf : wfV (.dict (dictSet settings "clients" (.list clients))) = true) :
    decode_clients (.str (encode_merge_settings settings clients)) = .ok (.list clients)
    ∧ dictGet (build_update_payload inbound_id ikvs settingsStr) "port" = dictGet ikvs "port"
    ∧ dictGet (build_update_payload inbound_id ikvs settingsStr) "protocol"
        = dictGet ikvs "protocol"
    ∧ dictGet (build_update_payload inbound_id ikvs settingsStr) "streamSettings"
        = dictGet ikvs "streamSettings"
    ∧ dictGet (build_update_payload inbound_id ikvs settingsStr) "sniffing"
        = dictGet ikvs "sniffing"
    ∧ dictGet (build_update_payload inbound_id ikvs settingsStr) "tag" = dictGet ikvs "tag"
    ∧ (hasKey ikvs "remark" = true →
        dictGet (build_update_payload inbound_id ikvs settingsStr) "remark"
          = dictGet ikvs "remark")
    ∧ (hasKey ikvs "enable" = true →
        dictGet (build_update_payload inbound_id ikvs settingsStr) "enable"
          = dictGet ikvs "enable") := by
  refine ⟨?_, rfl, rfl, rfl, rfl, rfl, ?_, ?_⟩
  · show (match pyGetAttr
        (match json_loads (dumps (.dict (dictSet settings "clients" (.list clients)))) with
          | some v => v
          | Option.none => PyVal.dict []) "clients" with
      | Except.ok c => Except.ok (pyOr c (PyVal.list []))
      | Except.error e => Except.error e) = Except.ok (PyVal.list clients)
    rw [json_loads_dumps hwf]
    show Except.ok (pyOr (dictGet (dictSet settings "clients" (.list clients)) "clients")
      (PyVal.list [])) = _
    rw [dictGet_dictSet]
    cases clients with
    | nil => rfl
    | cons c cs => rfl
  · exact fun h => dictGetD_eq_dictGet h _
  · exact fun h => dictGetD_eq_dictGet h _

theorem claim4_codec_round_trip_witness :
    decode_clients (.str (encode_merge_settings [("decryption", .str "none")]
        [.dict [("email", .str "alice"), ("id", .str "u1"), ("totalGB", .int 0)]]))
      = .ok (.list [.dict [("email", .str "alice"), ("id", .str "u1"), ("totalGB", .int 0)]]) :=
  (claim4_codec_round_trip [("decryption", .str "none")]
    [.dict [("email", .str "alice"), ("id", .str "u1"), ("totalGB", .int 0)]]
    1 [] "" (by rfl)).1

theorem adjustClients_cons (c : PyVal) (cs : List PyVal) (email : String) (g : Int) :
    adjustClients (c :: cs) email g
      = match pyGetAttr c "email" with
        | .error e => .error e
        | .ok ev =>
          if pyEqStr ev email then
            match pyGetAttr c "totalGB" with
            | .error e => .error e
            | .ok tv =>
              match pyInt (pyOr tv (.int 0)) with
              | .error e => .error e
              | .ok current =>
                if current = 0 then .error "У клиента безлимитный тариф"
                else
                  match pySetItem c "totalGB" (.int (current + g * (1024 * 1024 * 1024))) with
                  | .error e => .error e
                  | .ok c2 => .ok (some (c2 :: cs))
          else
            match adjustClients cs email g with
            | .error e => .error e
            | .ok Option.none => .ok Option.none
            | .ok (some cs2) => .ok (some (c :: cs2)) := rfl

theorem adjustClients_skip {c : PyVal} {email : String} {e' : PyVal}
    (he : pyGetAttr c "email" = .ok e') (hne : pyEqStr e' email = false)
    (cs : List PyVal) (g : Int) :
    adjustClients (c :: cs) email g
      = match adjustClients cs email g with
        | .error e => .error e
        | .ok Option.none => .ok Option.none
        | .ok (some cs2) => .ok (some (c :: cs2)) := by
  rw [adjustClients_cons, he]
  show (if pyEqStr e' email = true then _ else _) = _
  rw [hne]
  simp

theorem adjustClients_skipMany (pre cpost : List PyVal) (email : String) (g : Int)
    (hpre : ∀ c' ∈ pre, ∃ e', pyGetAttr c' "email" = .ok e' ∧ pyEqStr e' email = false) :
    adjustClients (pre ++ cpost) email g
      = match adjustClients cpost email g with
        | .error e => .error e
        | .ok Option.none => .ok Option.none
        | .ok (some cs2) => .ok (some (pre ++ cs2)) := by
  induction pre with
  | nil =>
    simp only [List.nil_append]
    cases h : adjustClients cpost email g with
    | error e => rfl
    | ok o =>
      cases o with
      | none => rfl
      | some cs2 => rfl
  | cons c pre ih =>
    obtain ⟨e', he, hne⟩ := hpre c (by simp)
    show adjustClients (c :: (pre ++ cpost)) email g = _
    rw [adjustClients_skip he hne, ih (fun c' hc' => hpre c' (by simp [hc']))]
    cases h : adjustClients cpost email g with
    | error e => rfl
    | ok o =>
      cases o with
      | none => rfl
      | some cs2 => rfl

theorem adjustClients_hit {ckvs : List (String × PyVal)} {email : String} {N : Int}
    (hev : pyEqStr (dictGet ckvs "email") email = true)
    (hN : pyInt (pyOr (dictGet ckvs "totalGB") (.int 0)) = .ok N)
    (cs : List PyVal) (g : Int) :
    adjustClients (.dict ckvs :: cs) email g
      = if N = 0 then .error "У клиента безлимитный тариф"
        else .ok (some (.dict (dictSet ckvs "totalGB"
            (.int (N + g * (1024 * 1024 * 1024)))) :: cs)) := by
  rw [adjustClients_cons]
  show (if pyEqStr (dictGet ckvs "email") email = true then _ else _) = _
  rw [hev, if_pos rfl]
  show (match pyInt (pyOr (dictGet ckvs "totalGB") (PyVal.int 0)) with
    | Except.error e => Except.error e
    | Except.ok current =>
      if current = 0 then Except.error "У клиента безлимитный тариф"
      else
        match pySetItem (PyVal.dict ckvs) "totalGB"
            (PyVal.int (current + g * (1024 * 1024 * 1024))) with
        | Except.error e => Except.error e
        | Except.ok c2 => Except.ok (some (c2 :: cs))) = _
  rw [hN]
  rfl

theorem add_traffic_pipeline (ikvs skvs : List (String × PyVal)) (clients : List PyVal)
    (inbound_id : Int) (email : String) (g : Int) (sraw : PyVal)
    (htr : PyVal.truthy (.dict ikvs) = true)
    (hset : pyGetItem (.dict ikvs) "settings" = .ok sraw)
    (hld : load_settings sraw = .ok (.dict skvs))
    (hcl : dictGetD skvs "clients" (.list []) = .list clients) :
    add_traffic (.dict ikvs) inbound_id email g
      = match adjustClients clients email g with
        | .error e => .error e
        | .ok Option.none => .error ("Клиент " ++ email ++ " не найден")
        | .ok (some clients2) =>
          .ok (build_update_payload inbound_id ikvs (encode_merge_settings skvs clients2)) := by
  unfold add_traffic
  rw [if_neg (by simp [htr]), hset]
  show (match load_settings sraw with
    | Except.error e => Except.error e
    | Except.ok settings =>
      match pyGetAttrD settings "clients" (PyVal.list []) with
      | Except.error e => Except.error e
      | Except.ok clientsVal =>
        match asPyList clientsVal with
        | Except.error e => Except.error e
        | Except.ok clients0 =>
          match adjustClients clients0 email g with
          | Except.error e => Except.error e
          | Except.ok Option.none => Except.error ("Клиент " ++ email ++ " не найден")
          | Except.ok (some clients2) =>
            match asDictKvs settings, asDictKvs (PyVal.dict ikvs) with
            | Except.ok skvs2, Except.ok ikvs2 =>
              Except.ok (build_update_payload inbound_id ikvs2
                (encode_merge_settings skvs2 clients2))
            | _, _ => Except.error "TypeError") = _
  rw [hld]
  show (match asPyList (dictGetD skvs "clients" (PyVal.list [])) with
    | Except.error e => Except.error e
    | Except.ok clients0 =>
      match adjustClients clients0 email g with
      | Except.error e => Except.error e
      | Except.ok Option.none => Except.error ("Клиент " ++ email ++ " не найден")
      | Except.ok (some clients2) =>
        match asDictKvs (PyVal.dict skvs), asDictKvs (PyVal.dict ikvs) with
        | Except.ok skvs2, Except.ok ikvs2 =>
          Except.ok (build_update_payload inbound_id ikvs2 (encode_merge_settings skvs2 clients2))
        | _, _ => Except.error "TypeError") = _
  rw [hcl]
  show (match adjustClients clients email g with
    | Except.error e => Except.error e
    | Except.ok Option.none => Except.error ("Клиент " ++ email ++ " не найден")
    | Except.ok (some clients2) =>
      match asDictKvs (PyVal.dict skvs), asDictKvs (PyVal.dict ikvs) with
      | Except.ok skvs2, Except.ok ikvs2 =>
        Except.ok (build_update_payload inbound_id ikvs2 (encode_merge_settings skvs2 clients2))
      | _, _ => Except.error "TypeError") = _
  cases adjustClients clients email g with
  | error e => rfl
  | ok o =>
    cases o with
    | none => rfl
    | some cs2 => rfl

/-- C7: when the first client matching the email has a current ceiling of
exactly zero (the unlimited sentinel), `add_traffic` raises the unlimited
plan error; the error is raised before the update payload is built, so no
update request is issued and the panel state is untouched. -/
theorem claim7_unlimited_rejected (ikvs skvs ckvs : List (String × PyVal))
    (pre post : List PyVal) (inbound_id : Int) (email : String) (g : Int) (sraw : PyVal)
    (htr : PyVal.truthy (.dict ikvs) = true)
    (hset : pyGetItem (.dict ikvs) "settings" = .ok sraw)
    (hld : load_settings sraw = .ok (.dict skvs))
    (hcl : dictGetD skvs "clients" (.list []) = .list (pre ++ .dict ckvs :: post))
    (hpre : ∀ c' ∈ pre, ∃ e', pyGetAttr c' "email" = .ok e' ∧ pyEqStr e' email = false)
    (hev : pyEqStr (dictGet ckvs "email") email = true)
    (hN : pyInt (pyOr (dictGet ckvs "totalGB") (.int 0)) = .ok 0) :
    add_traffic (.dict ikvs) inbound_id email g
      = .error "У клиента безлимитный тариф" := by
  rw [add_traffic_pipeline ikvs skvs _ inbound_id email g sraw htr hset hld hcl,
    adjustClients_skipMany pre _ email g hpre, adjustClients_hit hev hN post g,
    if_pos rfl]

theorem claim7_unlimited_rejected_witness :
    add_traffic (.dict [("settings", .dict [("clients",
        .list [.dict [("email", .str "bob"), ("totalGB", .int 0)]])])]) 1 "bob" 5
      = .error "У клиента безлимитный тариф" :=
  claim7_unlimited_rejected [("settings", .dict [("clients",
      .list [.dict [("email", .str "bob"), ("totalGB", .int 0)]])])]
    [("clients", .list [.dict [("email", .str "bob"), ("totalGB", .int 0)]])]
    [("email", .str "bob"), ("totalGB", .int 0)] [] [] 1 "bob" 5
    (.dict [("clients", .list [.dict [("email", .str "bob"), ("totalGB", .int 0)]])])
    rfl rfl rfl rfl (by simp) rfl rfl

/-- C8: when the first client matching the email has a nonzero current ceiling
of N bytes, `add_traffic` with a delta of g GB produces an update payload in
which that client carries a ceiling of exactly N plus g times two to the
thirty (1024 cubed bytes per GB), all other clients unchanged. -/
theorem claim8_traffic_added (ikvs skvs ckvs : List (String × PyVal))
    (pre post : List PyVal) (inbound_id : Int) (email : String) (g N : Int) (sraw : PyVal)
    (htr : PyVal.truthy (.dict ikvs) = true)
    (hset : pyGetItem (.dict ikvs) "settings" = .ok sraw)
    (hld : load_settings sraw = .ok (.dict skvs))
    (hcl : dictGetD skvs "clients" (.list []) = .list (pre ++ .dict ckvs :: post))
    (hpre : ∀ c' ∈ pre, ∃ e', pyGetAttr c' "email" = .ok e' ∧ pyEqStr e' email = false)
    (hev : pyEqStr (dictGet ckvs "email") email = true)
    (hN : pyInt (pyOr (dictGet ckvs "totalGB") (.int 0)) = .ok N)
    (hNz : N ≠ 0) :
    add_traffic (.dict ikvs) inbound_id email g
      = .ok (build_update_payload inbound_id ikvs (encode_merge_settings skvs
          (pre ++ .dict (dictSet ckvs "totalGB" (.int (N + g * 2 ^ 30))) :: post)))
    ∧ dictGet (dictSet ckvs "totalGB" (.int (N + g * 2 ^ 30))) "totalGB"
        = .int (N + g * 2 ^ 30) := by
  have h230 : (1024 * 1024 * 1024 : Int) = 2 ^ 30 := by norm_num
  constructor
  · rw [add_traffic_pipeline ikvs skvs _ inbound_id email g sraw htr hset hld hcl,
      adjustClients_skipMany pre _ email g hpre, adjustClients_hit hev hN post g,
      if_neg hNz, h230]
  · rw [dictGet_dictSet]

theorem claim8_traffic_added_witness :
    add_traffic (.dict [("settings", .dict [("clients",
        .list [.dict [("email", .str "bob"), ("totalGB", .int 1073741824)]])])]) 1 "bob" 2
      = .ok (build_update_payload 1
          [("settings", .dict [("clients",
            .list [.dict [("email", .str "bob"), ("totalGB", .int 1073741824)]])])]
          (encode_merge_settings
            [("clients", .list [.dict [("email", .str "bob"), ("totalGB", .int 1073741824)]])]
            [.dict [("email", .str "bob"), ("totalGB", .int (1073741824 + 2 * 2 ^ 30))]])) :=
  (claim8_traffic_added [("settings", .dict [("clients",
      .list [.dict [("email", .str "bob"), ("totalGB", .int 1073741824)]])])]
    [("clients", .list [.dict [("email", .str "bob"), ("totalGB", .int 1073741824)]])]
    [("email", .str "bob"), ("totalGB", .int 1073741824)] [] [] 1 "bob" 2 1073741824
    (.dict [("clients", .list [.dict [("email", .str "bob"), ("totalGB", .int 1073741824)]])])
    rfl rfl rfl rfl (by simp) rfl rfl (by norm_num)).1

theorem buildLink_noCredential (host email : String) (ikvs ckvs : List (String × PyVal))
    (hid : dictGet ckvs "id" = .none) (hpw : dictGet ckvs "password" = .none) :
    buildLink host email (.dict ikvs) (.dict ckvs) = .ok .noCredential := by
  show (if (pyOr (dictGet ckvs "id") (dictGet ckvs "password")).truthy = false
      then Except.ok StepRes.noCredential else _) = _
  rw [hid, hpw]
  rfl

/-- C9: when the polling loop finds the client matching the email but the
client record carries neither an id nor a password, resolution fails
permanently: the iteration returns the not found result at once, and the
whole call returns none regardless of the wait window and of every later
poll. -/
theorem claim9_missing_credential_permanent (host email : String)
    (ikvs ckvs : List (String × PyVal)) (clients : List PyVal)
    (htr : PyVal.truthy (.dict ikvs) = true)
    (hclients : asPyList (pyOr
        (dictGet (safe_json_kvs (pyOr (dictGet ikvs "settings") (.dict []))) "clients")
        (pyOr (dictGet ikvs "clients") (.list []))) = .ok clients)
    (hfind : findClient clients (pyLower (pyTrim email)) = .ok (some (.dict ckvs)))
    (hid : dictGet ckvs "id" = .none) (hpw : dictGet ckvs "password" = .none) :
    pollStep host email (.dict ikvs) = .ok .noCredential
    ∧ ∀ (polls : Nat → PyVal) (w : Nat), polls 0 = .dict ikvs →
        try_get_client_vless_link host polls email w = .ok Option.none := by
  have hstep : pollStep host email (.dict ikvs) = .ok .noCredential := by
    unfold pollStep
    rw [if_neg (by simp [htr])]
    show (match asPyList (pyOr
        (dictGet (safe_json_kvs (pyOr (dictGet ikvs "settings") (PyVal.dict []))) "clients")
        (pyOr (dictGet ikvs "clients") (PyVal.list []))) with
      | Except.error e => Except.error e
      | Except.ok clients0 =>
        match findClient clients0 (pyLower (pyTrim email)) with
        | Except.error e => Except.error e
        | Except.ok Option.none => Except.ok StepRes.retry
        | Except.ok (some client) => buildLink host email (PyVal.dict ikvs) client) = _
    rw [hclients]
    show (match findClient clients (pyLower (pyTrim email)) with
      | Except.error e => Except.error e
      | Except.ok Option.none => Except.ok StepRes.retry
      | Except.ok (some client) => buildLink host email (PyVal.dict ikvs) client) = _
    rw [hfind]
    exact buildLink_noCredential host email ikvs ckvs hid hpw
  refine ⟨hstep, ?_⟩
  intro polls w hp0
  unfold try_get_client_vless_link
  obtain ⟨f, hf⟩ : ∃ f, numIters (max 1 w) = f + 1 :=
    ⟨numIters (max 1 w) - 1, by unfold numIters; omega⟩
  rw [hf]
  show (match pollStep host email (polls 0) with
    | Except.error e => Except.error e
    | Except.ok StepRes.retry => pollLoop host email polls f (0 + 1)
    | Except.ok StepRes.noCredential => Except.ok Option.none
    | Except.ok (StepRes.link s) => Except.ok (some s)) = Except.ok Option.none
  rw [hp0, hstep]

theorem claim9_missing_credential_permanent_witness :
    try_get_client_vless_link "h"
      (fun _ => .dict [("settings", .dict [("clients",
        .list [.dict [("email", .str "alice"), ("limitIp", .int 2)]])])]) "alice" 7
      = .ok Option.none :=
  (claim9_missing_credential_permanent "h" "alice"
    [("settings", .dict [("clients", .list [.dict [("email", .str "alice"),
      ("limitIp", .int 2)]])])]
    [("email", .str "alice"), ("limitIp", .int 2)]
    [.dict [("email", .str "alice"), ("limitIp", .int 2)]]
    rfl rfl rfl rfl rfl).2
    (fun _ => .dict [("settings", .dict [("clients",
      .list [.dict [("email", .str "alice"), ("limitIp", .int 2)]])])]) 7 rfl

theorem pyGetAttr_ok {v : PyVal} {k : String} {w : PyVal} (h : pyGetAttr v k = .ok w) :
    ∃ kvs, v = .dict kvs ∧ dictGet kvs k = w := by
  cases v with
  | dict kvs => exact ⟨kvs, rfl, by simpa [pyGetAttr] using h⟩
  | none => simp [pyGetAttr] at h
  | bool b => simp [pyGetAttr] at h
  | int n => simp [pyGetAttr] at h
  | str s => simp [pyGetAttr] at h
  | list xs => simp [pyGetAttr] at h

theorem buildLink_link_shape {host email : String} {inbound client : PyVal} {s : String}
    (h : buildLink host email inbound client = .ok (.link s)) :
    ∃ (ikvs : List (String × PyVal)) (cred portStr pbk fp sni sid flow remark : String),
      inbound = .dict ikvs
      ∧ pyStrip (pyOr (dictGet ikvs "remark") (.str "")) = .ok remark
      ∧ s = "vless://" ++ cred ++ "@" ++ host ++ ":" ++ portStr
          ++ "?type=tcp&security=reality&pbk=" ++ pbk ++ "&fp=" ++ fp ++ "&sni=" ++ sni
          ++ "&sid=" ++ sid ++ "&spx=%2F&flow=" ++ flow ++ "#"
          ++ (if remark = "" then email else remark ++ "-" ++ email) := by
  unfold buildLink at h
  split at h
  · simp at h
  rename_i ssRaw hss
  split at h
  · simp at h
  rename_i portRaw hport
  split at h
  · simp at h
  rename_i idv hidv
  split at h
  · simp at h
  rename_i pwv hpwv
  split at h
  · simp at h
  split at h
  · simp at h
  rename_i flow hflow
  split at h
  · simp at h
  rename_i remRaw hremraw
  split at h
  · simp at h
  rename_i remark hremark
  simp only [Except.ok.injEq, StepRes.link.injEq] at h
  obtain ⟨ikvs, hik, hrg⟩ := pyGetAttr_ok hremraw
  rw [← hrg] at hremark
  refine ⟨ikvs, pyStr (pyOr idv pwv), pyStr (pyOr portRaw (.str "")),
    pyStr (select_public_key (reality_kvs ssRaw)),
    pyStr (select_fp (tls_kvs ssRaw) (reality_kvs ssRaw)),
    pyStr (select_sni (reality_kvs ssRaw) host),
    pyStr (select_short_id (reality_kvs ssRaw)), flow, remark, hik, hremark, ?_⟩
  rw [← h]
  exact vless_link_flat (pyStr (pyOr idv pwv)) host (pyStr (pyOr portRaw (.str "")))
    (pyStr (select_public_key (reality_kvs ssRaw)))
    (pyStr (select_fp (tls_kvs ssRaw) (reality_kvs ssRaw)))
    (pyStr (select_sni (reality_kvs ssRaw) host))
    (pyStr (select_short_id (reality_kvs ssRaw))) flow
    (if remark = "" then email else remark ++ "-" ++ email)

theorem pollStep_link {host email : String} {inbound : PyVal} {s : String}
    (h : pollStep host email inbound = .ok (.link s)) :
    ∃ client, buildLink host email inbound client = .ok (.link s) := by
  unfold pollStep at h
  split at h
  · simp at h
  split at h
  · simp at h
  rename_i sraw hs
  split at h
  · simp at h
  rename_i craw hc
  split at h
  · simp at h
  rename_i clients hcl
  split at h
  · simp at h
  · simp at h
  rename_i client hfind
  exact ⟨client, h⟩

theorem pollLoop_link (host email : String) (polls : Nat → PyVal) :
    ∀ (fuel i : Nat) (s : String), pollLoop host email polls fuel i = .ok (some s) →
      ∃ j, pollStep host email (polls j) = .ok (.link s) := by
  intro fuel
  induction fuel with
  | zero => intro i s h; simp [pollLoop] at h
  | succ f ih =>
    intro i s h
    rw [show pollLoop host email polls (f + 1) i
        = (match pollStep host email (polls i) with
          | Except.error e => Except.error e
          | Except.ok StepRes.retry => pollLoop host email polls f (i + 1)
          | Except.ok StepRes.noCredential => Except.ok Option.none
          | Except.ok (StepRes.link s2) => Except.ok (some s2)) from rfl] at h
    split at h
    · simp at h
    · exact ih (i + 1) s h
    · simp at h
    · rename_i s2 hstep
      simp only [Except.ok.injEq, Option.some.injEq] at h
      rw [h] at hstep
      exact ⟨i, hstep⟩

/-- C1: URI assembly is deterministic: every link produced by
`try_get_client_vless_link` consists of the vless scheme, the credential, the
host and the port, then the query parameters in exactly the fixed order
type=tcp, security=reality, pbk, fp, sni, sid, spx=%2F, flow, and a fragment
equal to the email when the trimmed remark of the polled inbound is empty,
else the remark and the email joined by a hyphen. -/
theorem claim1_uri_assembly (host : String) (polls : Nat → PyVal) (email : String)
    (w : Nat) (s : String)
    (h : try_get_client_vless_link host polls email w = .ok (some s)) :
    ∃ (j : Nat) (ikvs : List (String × PyVal))
      (cred portStr pbk fp sni sid flow remark : String),
      polls j = .dict ikvs
      ∧ pyStrip (pyOr (dictGet ikvs "remark") (.str "")) = .ok remark
      ∧ s = "vless://" ++ cred ++ "@" ++ host ++ ":" ++ portStr
          ++ "?type=tcp&security=reality&pbk=" ++ pbk ++ "&fp=" ++ fp ++ "&sni=" ++ sni
          ++ "&sid=" ++ sid ++ "&spx=%2F&flow=" ++ flow ++ "#"
          ++ (if remark = "" then email else remark ++ "-" ++ email) := by
  obtain ⟨j, hstep⟩ := pollLoop_link host email polls (numIters (max 1 w)) 0 s h
  obtain ⟨client, hb⟩ := pollStep_link hstep
  obtain ⟨ikvs, cred, portStr, pbk, fp, sni, sid, flow, remark, hik, hrem, hs⟩ :=
    buildLink_link_shape hb
  exact ⟨j, ikvs, cred, portStr, pbk, fp, sni, sid, flow, remark, hik, hrem, hs⟩

theorem claim1_uri_assembly_witness :
    ∃ (j : Nat) (ikvs : List (String × PyVal))
      (cred portStr pbk fp sni sid flow remark : String),
      PyVal.dict [("settings", PyVal.dict [("clients", PyVal.list
          [PyVal.dict [("email", PyVal.str "alice"), ("id", PyVal.str "u")]])]),
        ("port", PyVal.int 443), ("remark", PyVal.str "srv")] = PyVal.dict ikvs
      ∧ pyStrip (pyOr (dictGet ikvs "remark") (.str "")) = .ok remark
      ∧ "vless://u@h:443?type=tcp&security=reality&pbk=&fp=chrome&sni=h&sid=&spx=%2F&flow=xtls-rprx-vision#srv-alice"
        = "vless://" ++ cred ++ "@" ++ "h" ++ ":" ++ portStr
          ++ "?type=tcp&security=reality&pbk=" ++ pbk ++ "&fp=" ++ fp ++ "&sni=" ++ sni
          ++ "&sid=" ++ sid ++ "&spx=%2F&flow=" ++ flow ++ "#"
          ++ (if remark = "" then "alice" else remark ++ "-" ++ "alice") :=
  claim1_uri_assembly "h"
    (fun _ => PyVal.dict [("settings", PyVal.dict [("clients", PyVal.list
        [PyVal.dict [("email", PyVal.str "alice"), ("id", PyVal.str "u")]])]),
      ("port", PyVal.int 443), ("remark", PyVal.str "srv")])
    "alice" 1
    "vless://u@h:443?type=tcp&security=reality&pbk=&fp=chrome&sni=h&sid=&spx=%2F&flow=xtls-rprx-vision#srv-alice"
    rfl

/-- C2 counterexample: the claim that the flow of the produced URI equals the
client flow field verbatim fails: a client whose flow field is the string
x followed by a space yields the stripped flow x in the selection and in the
produced link. -/
theorem claim2_flow_strip_counterexample :
    select_flow (.dict [("flow", .str "x ")]) = .ok "x"
    ∧ ("x " : String) ≠ "x"
    ∧ try_get_client_vless_link "h" (fun _ => .dict [("settings", .dict [("clients",
        .list [.dict [("email", .str "alice"), ("id", .str "u"), ("flow", .str "x ")]])]),
        ("port", .int 443)]) "alice" 1
      = .ok (some "vless://u@h:443?type=tcp&security=reality&pbk=&fp=chrome&sni=h&sid=&spx=%2F&flow=x#alice") :=
  ⟨rfl, by decide, rfl⟩

/-- C2 amended: link resolution selects each URI field by the preference
chains of the source: the public key from the outer realitySettings publicKey
falling back to the nested settings publicKey and then the empty string; the
short id from the first shortIds entry, empty when the field is absent or an
empty list; the SNI from the first serverNames entry, falling back to the
resolved host; the fingerprint from tlsSettings, then realitySettings, then
the literal chrome; the flow from the client flow field stripped of
surrounding whitespace, defaulting to xtls-rprx-vision. -/
theorem pyOr_pos {x : PyVal} (h : x.truthy = true) (y : PyVal) : pyOr x y = x := by
  simp [pyOr, h]

theorem pyOr_neg {x : PyVal} (h : x.truthy = false) (y : PyVal) : pyOr x y = y := by
  simp [pyOr, h]

theorem claim2_selection_chains (rs tls ckvs : List (String × PyVal)) (host : String) :
    ((dictGet rs "publicKey").truthy = true →
      select_public_key rs = dictGet rs "publicKey")
    ∧ ((dictGet rs "publicKey").truthy = false →
        (dictGet (safe_json_kvs (pyOr (dictGet rs "settings") (.dict []))) "publicKey").truthy
          = true →
        select_public_key rs
          = dictGet (safe_json_kvs (pyOr (dictGet rs "settings") (.dict []))) "publicKey")
    ∧ ((dictGet rs "publicKey").truthy = false →
        (dictGet (safe_json_kvs (pyOr (dictGet rs "settings") (.dict []))) "publicKey").truthy
          = false →
        select_public_key rs = .str "")
    ∧ (∀ x l, dictGet rs "shortIds" = .list (x :: l) → select_short_id rs = x)
    ∧ (dictGet rs "shortIds" = .none → select_short_id rs = .str "")
    ∧ (dictGet rs "shortIds" = .list [] → select_short_id rs = .str "")
    ∧ (∀ x l, dictGet rs "serverNames" = .list (x :: l) → select_sni rs host = x)
    ∧ (dictGet rs "serverNames" = .none → select_sni rs host = .str host)
    ∧ (dictGet rs "serverNames" = .list [] → select_sni rs host = .str host)
    ∧ ((dictGet tls "fingerprint").truthy = true →
        select_fp tls rs = dictGet tls "fingerprint")
    ∧ ((dictGet tls "fingerprint").truthy = false → (dictGet rs "fingerprint").truthy = true →
        select_fp tls rs = dictGet rs "fingerprint")
    ∧ ((dictGet tls "fingerprint").truthy = false → (dictGet rs "fingerprint").truthy = false →
        select_fp tls rs = .str "chrome")
    ∧ (∀ fs : String, dictGet ckvs "flow" = .str fs → fs ≠ "" →
        select_flow (.dict ckvs) = .ok (pyTrim fs))
    ∧ (dictGet ckvs "flow" = .none → select_flow (.dict ckvs) = .ok "xtls-rprx-vision") := by
  refine ⟨?_, ?_, ?_, ?_, ?_, ?_, ?_, ?_, ?_, ?_, ?_, ?_, ?_, ?_⟩
  · intro h
    show pyOr (dictGet rs "publicKey") (pyOr (dictGet (safe_json_kvs
      (pyOr (dictGet rs "settings") (.dict []))) "publicKey") (.str "")) = _
    rw [pyOr_pos h]
  · intro h1 h2
    show pyOr (dictGet rs "publicKey") (pyOr (dictGet (safe_json_kvs
      (pyOr (dictGet rs "settings") (.dict []))) "publicKey") (.str "")) = _
    rw [pyOr_neg h1, pyOr_pos h2]
  · intro h1 h2
    show pyOr (dictGet rs "publicKey") (pyOr (dictGet (safe_json_kvs
      (pyOr (dictGet rs "settings") (.dict []))) "publicKey") (.str "")) = _
    rw [pyOr_neg h1, pyOr_neg h2]
  · intro x l hs
    show (match pyOr (dictGet rs "shortIds") (.list []) with
      | PyVal.list (x2 :: _) => x2
      | _ => PyVal.str "") = x
    rw [hs]
    rfl
  · intro hs
    show (match pyOr (dictGet rs "shortIds") (.list []) with
      | PyVal.list (x2 :: _) => x2
      | _ => PyVal.str "") = PyVal.str ""
    rw [hs]
    rfl
  · intro hs
    show (match pyOr (dictGet rs "shortIds") (.list []) with
      | PyVal.list (x2 :: _) => x2
      | _ => PyVal.str "") = PyVal.str ""
    rw [hs]
    rfl
  · intro x l hs
    show (match pyOr (dictGet rs "serverNames") (.list [.str host]) with
      | PyVal.list (x2 :: _) => x2
      | _ => PyVal.str host) = x
    rw [hs]
    rfl
  · intro hs
    show (match pyOr (dictGet rs "serverNames") (.list [.str host]) with
      | PyVal.list (x2 :: _) => x2
      | _ => PyVal.str host) = PyVal.str host
    rw [hs]
    rfl
  · intro hs
    show (match pyOr (dictGet rs "serverNames") (.list [.str host]) with
      | PyVal.list (x2 :: _) => x2
      | _ => PyVal.str host) = PyVal.str host
    rw [hs]
    rfl
  · intro h
    show pyOr (dictGet tls "fingerprint")
      (pyOr (dictGet rs "fingerprint") (.str "chrome")) = _
    rw [pyOr_pos h]
  · intro h1 h2
    show pyOr (dictGet tls "fingerprint")
      (pyOr (dictGet rs "fingerprint") (.str "chrome")) = _
    rw [pyOr_neg h1, pyOr_pos h2]
  · intro h1 h2
    show pyOr (dictGet tls "fingerprint")
      (pyOr (dictGet rs "fingerprint") (.str "chrome")) = _
    rw [pyOr_neg h1, pyOr_neg h2]
  · intro fs hflow hfs
    have hne : (fs != "") = true := by simpa using hfs
    show pyStrip (pyOr (dictGet ckvs "flow") (.str "xtls-rprx-vision")) = .ok (pyTrim fs)
    rw [hflow]
    simp [pyOr, PyVal.truthy, hne, pyStrip]
  · intro hflow
    show pyStrip (pyOr (dictGet ckvs "flow") (.str "xtls-rprx-vision")) = .ok "xtls-rprx-vision"
    rw [hflow]
    rfl

theorem claim2_selection_chains_witness :
    select_public_key [("publicKey", .str "PK1")]
      = dictGet [("publicKey", .str "PK1")] "publicKey" :=
  (claim2_selection_chains [("publicKey", .str "PK1")] [] [] "h").1 rfl

theorem anyEmailMatch_cons (c : PyVal) (cs : List PyVal) (email : String) :
    anyEmailMatch (c :: cs) email
      = match pyGetAttr c "email" with
        | .error e => .error e
        | .ok ev => if pyEqStr ev email then .ok true else anyEmailMatch cs email := rfl

theorem anyEmailMatch_true (pre : List PyVal) (c : PyVal) (post : List PyVal) (email : String)
    (hpre : ∀ c' ∈ pre, ∃ e', pyGetAttr c' "email" = .ok e' ∧ pyEqStr e' email = false)
    (hc : pyGetAttr c "email" = .ok (.str email)) :
    anyEmailMatch (pre ++ c :: post) email = .ok true := by
  induction pre with
  | nil =>
    show anyEmailMatch (c :: post) email = _
    rw [anyEmailMatch_cons, hc]
    show (if pyEqStr (.str email) email = true then Except.ok true else _) = _
    rw [if_pos (by simp [pyEqStr])]
  | cons c' pre ih =>
    obtain ⟨e', he, hne⟩ := hpre c' (by simp)
    show anyEmailMatch (c' :: (pre ++ c :: post)) email = _
    rw [anyEmailMatch_cons, he]
    show (if pyEqStr e' email = true then Except.ok true else _) = _
    rw [hne]
    simpa using ih (fun c'' hc'' => hpre c'' (by simp [hc'']))

/-- C6: when the email already exists in the inbound client list, the admin
provisioning flow does not create a duplicate client (it never reaches
`add_client`, so no addClient request is issued) and replies with the link of
the existing client as resolved by `get_client_vless_link`. -/
theorem claim6_no_duplicate_on_existing (pre post : List PyVal) (c : PyVal) (email : String)
    (env : AddClientEnv) (inbound_id : Int) (limit_ip total_gb expiry_time_ms : Int)
    (flow : Option String)
    (hpre : ∀ c' ∈ pre, ∃ e', pyGetAttr c' "email" = .ok e' ∧ pyEqStr e' email = false)
    (hc : pyGetAttr c "email" = .ok (.str email)) :
    (∀ l, get_client_vless_link env.host env.polls inbound_id email = .ok l →
      admin_plan_pick (pre ++ c :: post) email env inbound_id limit_ip total_gb
        expiry_time_ms flow = .ok (.existingWithLink l))
    ∧ (∀ r, admin_plan_pick (pre ++ c :: post) email env inbound_id limit_ip total_gb
        expiry_time_ms flow ≠ .ok (.createAttempted r)) := by
  have hany := anyEmailMatch_true pre c post email hpre hc
  constructor
  · intro l hl
    unfold admin_plan_pick
    rw [hany]
    show (match get_client_vless_link env.host env.polls inbound_id email with
      | Except.ok link => Except.ok (AdminOutcome.existingWithLink link)
      | Except.error _ => Except.ok AdminOutcome.existingNoLink) = _
    rw [hl]
  · intro r hcontra
    unfold admin_plan_pick at hcontra
    rw [hany] at hcontra
    have hcontra2 : (match get_client_vless_link env.host env.polls inbound_id email with
      | Except.ok link => Except.ok (AdminOutcome.existingWithLink link)
      | Except.error _ => Except.ok AdminOutcome.existingNoLink)
        = Except.ok (AdminOutcome.createAttempted r) := hcontra
    cases hg : get_client_vless_link env.host env.polls inbound_id email with
    | ok link => rw [hg] at hcontra2; simp at hcontra2
    | error e => rw [hg] at hcontra2; simp at hcontra2

theorem claim6_no_duplicate_on_existing_witness :
    admin_plan_pick [.dict [("email", .str "alice"), ("id", .str "u")]] "alice"
      ⟨.dict [], [], "uuid", "h", fun _ => .dict [("settings", .dict [("clients", .list
        [.dict [("email", .str "alice"), ("id", .str "u")]])]), ("port", .int 443),
        ("remark", .str "srv")]⟩
      7 2 30 1700000000000 (some "xtls-rprx-vision")
      = .ok (.existingWithLink
        "vless://u@h:443?type=tcp&security=reality&pbk=&fp=chrome&sni=h&sid=&spx=%2F&flow=xtls-rprx-vision#srv-alice") :=
  (claim6_no_duplicate_on_existing [] [] (.dict [("email", .str "alice"), ("id", .str "u")])
    "alice"
    ⟨.dict [], [], "uuid", "h", fun _ => .dict [("settings", .dict [("clients", .list
      [.dict [("email", .str "alice"), ("id", .str "u")]])]), ("port", .int 443),
      ("remark", .str "srv")]⟩
    7 2 30 1700000000000 (some "xtls-rprx-vision") (by simp) rfl).1
    "vless://u@h:443?type=tcp&security=reality&pbk=&fp=chrome&sni=h&sid=&spx=%2F&flow=xtls-rprx-vision#srv-alice"
    rfl
